import Mathlib

/-!
Verification development for the slydb Keynote-extraction engine.

The definitions below are a shallow embedding of `src/slydb/model.py`
(the main extraction engine) and, where a claim cites it, of the earlier
variant `src/slydb/keynote.py`.  Machine integers are modelled as `Nat`
with explicit reduction modulo 2^32 where the algorithm wraps; byte
strings are `List Nat` (each entry < 256); Python exceptions are
`Except` errors; Python `dict` registries are association lists whose
lookup returns the most recently inserted binding, matching insert-or-
overwrite dictionary semantics.
-/

/-! ### 32-bit word helpers (Python ints truncated as in hashlib's sha256) -/

def w32 (n : Nat) : Nat := n % 4294967296

def rotr32 (x n : Nat) : Nat := w32 ((x >>> n) ||| (x <<< (32 - n)))

def shr32 (x n : Nat) : Nat := x >>> n

/-! ### SHA-256 (FIPS 180-4), as used by `hashlib.sha256` in
`_global_slide_uuid` (model.py) and `Slide.uuid` (keynote.py). -/

/-- The 64 SHA-256 round constants, packed big-endian into one 2048-bit
integer (32 bits per constant, first constant in the highest limb). -/
def sha256Kpacked : Nat :=
  0x428a2f9871374491b5c0fbcfe9b5dba53956c25b59f111f1923f82a4ab1c5ed5d807aa9812835b01243185be550c7dc372be5d7480deb1fe9bdc06a7c19bf174e49b69c1efbe47860fc19dc6240ca1cc2de92c6f4a7484aa5cb0a9dc76f988da983e5152a831c66db00327c8bf597fc7c6e00bf3d5a7914706ca63511429296727b70a852e1b21384d2c6dfc53380d13650a7354766a0abb81c2c92e92722c85a2bfe8a1a81a664bc24b8b70c76c51a3d192e819d6990624f40e3585106aa07019a4c1161e376c082748774c34b0bcb5391c0cb34ed8aa4a5b9cca4f682e6ff3748f82ee78a5636f84c878148cc7020890befffaa4506cebbef9a3f7c67178f2

def sha256K : List Nat :=
  (List.range 64).map fun i => (sha256Kpacked >>> (32 * (63 - i))) % 4294967296

/-- The eight SHA-256 initial hash values, packed big-endian into one
256-bit integer. -/
def sha256H0packed : Nat :=
  0x6a09e667bb67ae853c6ef372a54ff53a510e527f9b05688c1f83d9ab5be0cd19

def sha256H0 : List Nat :=
  (List.range 8).map fun i => (sha256H0packed >>> (32 * (7 - i))) % 4294967296

/-- Big-endian 8-byte encoding of a (< 2^64) length-in-bits value. -/
def be64 (n : Nat) : List Nat :=
  [(n >>> 56) % 256, (n >>> 48) % 256, (n >>> 40) % 256, (n >>> 32) % 256,
   (n >>> 24) % 256, (n >>> 16) % 256, (n >>> 8) % 256, n % 256]

/-- SHA-256 padding: append 0x80, zero bytes to 56 mod 64, then the
bit length big-endian in 8 bytes. -/
def sha256Pad (msg : List Nat) : List Nat :=
  msg ++ (0x80 :: List.replicate ((119 - msg.length % 64) % 64) 0)
      ++ be64 (8 * msg.length)

/-- Group bytes into big-endian 32-bit words. -/
def bytesToWords : List Nat → List Nat
  | b1 :: b2 :: b3 :: b4 :: rest =>
      (((b1 <<< 24) ||| (b2 <<< 16)) ||| ((b3 <<< 8) ||| b4)) :: bytesToWords rest
  | _ => []

/-- Group a word stream into 16-word blocks; the first argument is the
number of blocks (structural fuel, so that the kernel can evaluate). -/
def splitBlocks : Nat → List Nat → List (List Nat)
  | 0, _ => []
  | n + 1, ws => ws.take 16 :: splitBlocks n (ws.drop 16)

/-- The 16-word blocks of a padded byte stream. -/
def sha256Blocks (bytes : List Nat) : List (List Nat) :=
  let ws := bytesToWords bytes
  splitBlocks (ws.length / 16) ws

/-- Message-schedule extension: from the 16 block words to 64 words. -/
def sha256Extend (ws : List Nat) : Nat → List Nat
  | 0 => ws
  | j + 1 =>
      let ws' := sha256Extend ws j
      let i := ws'.length
      let w15 := ws'.getD (i - 15) 0
      let w2 := ws'.getD (i - 2) 0
      let s0 := (rotr32 w15 7) ^^^ ((rotr32 w15 18) ^^^ (shr32 w15 3))
      let s1 := (rotr32 w2 17) ^^^ ((rotr32 w2 19) ^^^ (shr32 w2 10))
      ws' ++ [w32 (ws'.getD (i - 16) 0 + s0 + ws'.getD (i - 7) 0 + s1)]

/-- One compression round. State is the 8-tuple (a,b,c,d,e,f,g,h) as a list. -/
def sha256Round (st : List Nat) (k w : Nat) : List Nat :=
  match st with
  | [a, b, c, d, e, f, g, h] =>
      let s1 := (rotr32 e 6) ^^^ ((rotr32 e 11) ^^^ (rotr32 e 25))
      let ch := (e &&& f) ^^^ ((2 ^ 32 - 1 - e) &&& g)
      let t1 := w32 (h + s1 + ch + k + w)
      let s0 := (rotr32 a 2) ^^^ ((rotr32 a 13) ^^^ (rotr32 a 22))
      let mj := (a &&& b) ^^^ ((a &&& c) ^^^ (b &&& c))
      let t2 := w32 (s0 + mj)
      [w32 (t1 + t2), a, b, c, w32 (d + t1), e, f, g]
  | other => other

/-- Compress one 16-word block into the running hash value. -/
def sha256Compress (hv : List Nat) (block : List Nat) : List Nat :=
  let ws := sha256Extend block 48
  let st := (List.zip sha256K ws).foldl (fun st kw => sha256Round st kw.1 kw.2) hv
  (List.zip hv st).map fun p => w32 (p.1 + p.2)

/-- Serialize the 8-word hash value to 32 big-endian bytes. -/
def wordsToBytes (ws : List Nat) : List Nat :=
  ws.flatMap fun w => [(w >>> 24) % 256, (w >>> 16) % 256, (w >>> 8) % 256, w % 256]

/-- SHA-256 digest of a byte string, as a list of 32 bytes. -/
def sha256Bytes (msg : List Nat) : List Nat :=
  wordsToBytes ((sha256Blocks (sha256Pad msg)).foldl sha256Compress sha256H0)

/-! ### UTF-8 encoding (Python `str.encode("utf-8")`) -/

def utf8Char (c : Char) : List Nat :=
  let n := c.toNat
  if n < 0x80 then [n]
  else if n < 0x800 then [0xC0 ||| (n >>> 6), 0x80 ||| (n &&& 63)]
  else if n < 0x10000 then
    [0xE0 ||| (n >>> 12), 0x80 ||| ((n >>> 6) &&& 63), 0x80 ||| (n &&& 63)]
  else
    [0xF0 ||| (n >>> 18), 0x80 ||| ((n >>> 12) &&& 63),
     0x80 ||| ((n >>> 6) &&& 63), 0x80 ||| (n &&& 63)]

def utf8Encode (s : String) : List Nat := s.toList.flatMap utf8Char

/-! ### URL-safe base64 (Python `base64.urlsafe_b64encode`) -/

def b64Alphabet : List Char :=
  "ABCDEFGHIJKLMNOPQRSTUVWXYZabcdefghijklmnopqrstuvwxyz0123456789-_".toList

def b64Char (n : Nat) : Char := b64Alphabet.getD n '?'

/-- Padded URL-safe base64, exactly as `base64.urlsafe_b64encode` produces
(trailing '=' padding to a multiple of four characters). -/
def b64UrlPadded : List Nat → List Char
  | b1 :: b2 :: b3 :: rest =>
      b64Char (b1 >>> 2) :: b64Char (((b1 &&& 3) <<< 4) ||| (b2 >>> 4)) ::
      b64Char (((b2 &&& 15) <<< 2) ||| (b3 >>> 6)) :: b64Char (b3 &&& 63) ::
      b64UrlPadded rest
  | [b1, b2] =>
      [b64Char (b1 >>> 2), b64Char (((b1 &&& 3) <<< 4) ||| (b2 >>> 4)),
       b64Char ((b2 &&& 15) <<< 2), '=']
  | [b1] => [b64Char (b1 >>> 2), b64Char ((b1 &&& 3) <<< 4), '=', '=']
  | [] => []

/-- URL-safe base64 without padding characters (the spec's
"urlsafe-base64 (no padding)"). -/
def b64UrlNoPad : List Nat → List Char
  | b1 :: b2 :: b3 :: rest =>
      b64Char (b1 >>> 2) :: b64Char (((b1 &&& 3) <<< 4) ||| (b2 >>> 4)) ::
      b64Char (((b2 &&& 15) <<< 2) ||| (b3 >>> 6)) :: b64Char (b3 &&& 63) ::
      b64UrlNoPad rest
  | [b1, b2] =>
      [b64Char (b1 >>> 2), b64Char (((b1 &&& 3) <<< 4) ||| (b2 >>> 4)),
       b64Char ((b2 &&& 15) <<< 2)]
  | [b1] => [b64Char (b1 >>> 2), b64Char ((b1 &&& 3) <<< 4)]
  | [] => []

/-- Python `bytes.rstrip(b"=")`: remove trailing '=' characters. -/
def rstripEq (cs : List Char) : List Char :=
  (cs.reverse.dropWhile (fun c => c == '=')).reverse

/-! ### The stable slide id, embedded from `_global_slide_uuid`
(model.py lines 934-939); `Slide.uuid` in keynote.py (lines 153-163) is
the identical computation.  The document identifier and revision reach
this function as strings (`str(...)` of the parsed values); the slide
identifier is an `int`, whose `str` is decimal `toString`. -/

def global_slide_uuid (docIdent revision : String) (slideId : Nat) : String :=
  let combo := docIdent ++ revision ++ toString slideId
  let hashBytes := (sha256Bytes (utf8Encode combo)).take 16
  String.mk (rstripEq (b64UrlPadded hashBytes))

/-- The spec's description of the stable slide id: urlsafe-base64 with no
padding of the first 16 bytes of the SHA-256 hash of the UTF-8 encoded
concatenation of the triple. -/
def specStableSlideId (docIdent revision : String) (slideId : Nat) : String :=
  String.mk (b64UrlNoPad ((sha256Bytes (utf8Encode (docIdent ++ revision ++ toString slideId))).take 16))

/-! ### `_safe_hash` (model.py lines 942-943): single-character
`str.replace` is a character map, and `replace("=", "")` deletes every
'=' character. -/

def safeHashChar (c : Char) : Char :=
  if c == '/' then '_' else if c == '+' then '-' else c

def safe_hash (data : String) : String :=
  String.mk (((data.toList.map safeHashChar).filter (fun c => !(c == '='))))

/-- The transformation as the spec words it: replace '/' by '_', '+' by
'-', and strip only the trailing '=' characters. -/
def specSafeHash (data : String) : String :=
  String.mk (rstripEq (data.toList.map safeHashChar))

/-! ## Data model, embedded from model.py

Structures carry the fields that the extraction pipeline reads;
optional metadata fields that no code path of the engine reads are
omitted.  `msgspec` gives every instance its own fresh copy of a
mutable `{}` / `[]` field default, so `TSP_PackageMetadata`'s
`_component_map` / `_data_map` are per-instance and are modelled as
pure functions of the instance. -/

structure Ver where
  major : Nat
  minor : Nat
  patch : Nat
deriving DecidableEq

/-- `Ver.__str__`: `f"{major}.{minor}.{patch}"`. -/
def Ver.str (v : Ver) : String :=
  toString v.major ++ "." ++ toString v.minor ++ "." ++ toString v.patch

/-- `TSP.Reference`: a field naming another archive segment by identifier. -/
structure Ref where
  identifier : Nat
deriving DecidableEq

/-- `Revision.identifier` is a `uuid.UUID`; the engine only ever applies
`str(...)` to it, so it is carried as its canonical string. -/
structure Revision where
  identifier : String
deriving DecidableEq

structure DataItem where
  identifier : Nat
  digest : String
  preferredFileName : String
  fileName : Option String := none
deriving DecidableEq

structure Component where
  identifier : Nat
  preferredLocator : String
  locator : Option String := none
deriving DecidableEq

structure TSP_PackageMetadata where
  components : List Component
  datas : List DataItem
  fileFormatVersion : Ver
  revision : Revision
deriving DecidableEq

structure KN_SlideTreeArchive where
  slides : List Ref := []
  rootSlideNode : Option Ref := none
deriving DecidableEq

/-- The source field is named `show`, a Lean keyword; it is carried
here as `showRef`. -/
structure KN_DocumentArchive where
  showRef : Ref
deriving DecidableEq

structure KN_ShowArchive where
  slideTree : KN_SlideTreeArchive
deriving DecidableEq

structure KN_SlideNodeArchive where
  hasBuilds : Bool
  hasNote : Bool
  hasTransition : Bool
  isSkipped : Bool
  isSlideNumberVisible : Bool
  thumbnailsAreDirty : Bool
  slide : Option Ref := none
  thumbnails : List Ref := []
  children : List Ref := []
deriving DecidableEq

/-- `TSWP_StorageArchive`: `kind: str | None = "TEXTBOX"` and the text
lines; the style tables are never read by the engine. -/
structure TSWP_StorageArchive where
  kind : Option String := some "TEXTBOX"
  text : List String := []
deriving DecidableEq

/-- Archive header; `messageInfos` metadata is never read by the engine. -/
structure TSP_ArchiveInfo where
  identifier : Nat
deriving DecidableEq

/-- The `ArchiveObject` tagged union (model.py line 749).  The five
variants whose fields the engine reads are structured; every other
`PBtype` subclass is an empty field set and is carried as `stub` with
its tag string (see `knownTags`). -/
inductive ArchiveObject where
  | packageMetadata (pm : TSP_PackageMetadata)
  | documentArchive (da : KN_DocumentArchive)
  | showArchive (sa : KN_ShowArchive)
  | slideNodeArchive (na : KN_SlideNodeArchive)
  | storageArchive (st : TSWP_StorageArchive)
  | stub (tag : String)
deriving DecidableEq

structure Archive where
  header : TSP_ArchiveInfo
  objects : List ArchiveObject
deriving DecidableEq

structure Chunk where
  archives : List Archive
deriving DecidableEq

/-! ## The class-level resolver registry `Archive._store`

`Archive._store` is a `ClassVar` dictionary: one mutable mapping shared
by every `Archive` instance in the process, across all `KeynoteFile`
invocations.  It is modelled as explicitly threaded state: a list of
(identifier, archive) insertions, most recent first, with dictionary
lookup returning the most recent binding. -/

abbrev Store := List (Nat × Archive)

def Store.nil : Store := []

/-- Dictionary lookup: the most recently inserted binding wins. -/
def Store.lookup (s : Store) (k : Nat) : Option Archive :=
  match s with
  | [] => none
  | kv :: rest => if kv.1 == k then some kv.2 else Store.lookup rest k

/-- `Archive.__post_init__` runs once per constructed archive:
`Archive._store[self.header.identifier] = self`.  Converting a chunk
constructs its archives in order, so registers them in order. -/
def registerChunk (s : Store) (c : Chunk) : Store :=
  c.archives.foldl (fun acc a => (a.header.identifier, a) :: acc) s

/-- `Ref.archive`: `Archive._store[self.identifier]`; a missing key is a
`KeyError`, modelled as `none`. -/
def Ref.archive (s : Store) (r : Ref) : Option Archive :=
  Store.lookup s r.identifier

/-! ## Errors -/

inductive DecodeErr where
  | invalidTag (tag : String)
  | malformed
deriving DecidableEq

inductive PyErr where
  | keyError
  | indexError
  | attributeError
  | stopIteration
  | convertError (e : DecodeErr)
deriving DecidableEq

/-! ## next_object_of_type -/

def isPackageMetadata? : ArchiveObject → Option TSP_PackageMetadata
  | .packageMetadata pm => some pm
  | _ => none

def isDocumentArchive? : ArchiveObject → Option KN_DocumentArchive
  | .documentArchive da => some da
  | _ => none

def isShowArchive? : ArchiveObject → Option KN_ShowArchive
  | .showArchive sa => some sa
  | _ => none

def isSlideNodeArchive? : ArchiveObject → Option KN_SlideNodeArchive
  | .slideNodeArchive na => some na
  | _ => none

/-- `Archive.next_object_of_type` (model.py lines 763-764):
`next(obj for obj in self.objects if isinstance(obj, type_))`; an
exhausted generator raises `StopIteration`. -/
def Archive.next_object_of_type {α : Type} (f : ArchiveObject → Option α)
    (a : Archive) : Except PyErr α :=
  match (a.objects.filterMap f).head? with
  | some x => .ok x
  | none => .error .stopIteration

/-- `Chunk.next_object_of_type` (model.py lines 772-774): the `for` loop
body is an unconditional `return`, so only the first archive is ever
examined; an empty archive list falls through to an implicit `None`,
and a first archive without a match raises `StopIteration`. -/
def Chunk.next_object_of_type {α : Type} (f : ArchiveObject → Option α)
    (c : Chunk) : Except PyErr (Option α) :=
  match c.archives with
  | [] => .ok none
  | a :: _ =>
    match (a.objects.filterMap f).head? with
    | some x => .ok (some x)
    | none => .error .stopIteration

/-- `Document.document_archive` (model.py lines 778-780). -/
def Document.document_archive (c : Chunk) : Except PyErr (Option KN_DocumentArchive) :=
  c.next_object_of_type isDocumentArchive?

/-- `Metadata.package_metadata` (model.py lines 792-794). -/
def Metadata.package_metadata (c : Chunk) : Except PyErr (Option TSP_PackageMetadata) :=
  c.next_object_of_type isPackageMetadata?

/-! ## Package-metadata maps (`__post_init__`, lines 113-123) -/

/-- Dict built by iterated insertion; most recent insertion wins. -/
def TSP_PackageMetadata.component_map (pm : TSP_PackageMetadata) : List (Nat × Component) :=
  pm.components.foldl (fun m c => (c.identifier, c) :: m) []

def TSP_PackageMetadata.get_component (pm : TSP_PackageMetadata) (k : Nat) : Option Component :=
  ((pm.component_map).find? (fun e => e.1 == k)).map (·.2)

def TSP_PackageMetadata.data_map (pm : TSP_PackageMetadata) : List (Nat × DataItem) :=
  pm.datas.foldl (fun m d => (d.identifier, d) :: m) []

def TSP_PackageMetadata.get_data_item (pm : TSP_PackageMetadata) (k : Nat) : Option DataItem :=
  ((pm.data_map).find? (fun e => e.1 == k)).map (·.2)

/-! ## Slide text extraction (model.py lines 797-850) -/

/-- The character set of `strip("\n￼ ")`. -/
def stripSet (c : Char) : Bool := c == '\n' || c == '￼' || c == ' '

/-- Python `str.strip("\n￼ ")`: remove those characters from both ends. -/
def pyStrip (s : String) : String :=
  String.mk (((s.toList.dropWhile stripSet).reverse.dropWhile stripSet).reverse)

structure Slide where
  number : Nat
  archives : List Archive
  node : KN_SlideNodeArchive
deriving DecidableEq

/-- `Slide.text_blocks`: every `TSWP_StorageArchive` object, of any
kind, whose joined and stripped text is non-empty. -/
def Slide.text_blocks (s : Slide) : List String :=
  s.archives.flatMap fun a =>
    a.objects.filterMap fun o =>
      match o with
      | .storageArchive st =>
          let val := pyStrip (String.intercalate "\n" st.text)
          if val = "" then none else some val
      | _ => none

/-- `Slide.presenter_notes`: the joined, stripped text of the first
storage object whose `kind` is `"NOTE"`, else the empty string. -/
def Slide.presenter_notes (s : Slide) : String :=
  match (s.archives.flatMap fun a =>
      a.objects.filterMap fun o =>
        match o with
        | .storageArchive st => if st.kind = some "NOTE" then some st.text else none
        | _ => none).head? with
  | some txt => pyStrip (String.intercalate "\n" txt)
  | none => ""

structure SlideRecord where
  slide_number : Nat
  text_blocks : String
  presenter_notes : String
  thumb_digest : String
  is_skipped : Bool
  id : String
  slide_ident : Nat
deriving DecidableEq

/-- `Slide.record` (lines 841-850).  The dict literal is evaluated left
to right, so the thumbnail lookup chain (`safe_thumb_hash` →
`thumbnail_digest` → `_thumbnail_data`, which indexes
`thumbnails[0]` and the metadata data map) runs before the id 
derivation (`self.identifier`, which indexes `archives[0]`). -/
def Slide.record (docIdent : String) (pm : TSP_PackageMetadata) (s : Slide) :
    Except PyErr SlideRecord :=
  match s.node.thumbnails.head? with
  | none => .error .indexError
  | some tref =>
    match pm.get_data_item tref.identifier with
    | none => .error .keyError
    | some item =>
      match s.archives.head? with
      | none => .error .indexError
      | some a0 =>
        .ok { slide_number := s.number,
              text_blocks := String.intercalate "\n" s.text_blocks,
              presenter_notes := s.presenter_notes,
              thumb_digest := safe_hash item.digest,
              is_skipped := s.node.isSkipped,
              id := global_slide_uuid docIdent pm.revision.identifier a0.header.identifier,
              slide_ident := a0.header.identifier }

structure DocRecord where
  path : String
  id : String
  revision : String
  file_format_version : String
  slides : List SlideRecord
deriving DecidableEq

/-! ## Container and whole-file extraction (`KeynoteFile`) -/

deriving instance DecidableEq for Except

/-- One Keynote container.  `docIdent` is the canonical string of the
UUID read from `Metadata/DocumentIdentifier`; `documentChunk` and
`metadataChunk` are the outcomes of `_iwa_to_dict` + `convert` on
`Index/Document.iwa` / `Index/Metadata.iwa`; `entries` maps the other
entry names to their decode outcome (an absent name is a `KeyError`, a
stored error a failed conversion). -/
structure Container where
  path : String
  docIdent : String
  documentChunk : Except DecodeErr Chunk
  metadataChunk : Except DecodeErr Chunk
  entries : List (String × Except DecodeErr Chunk)
deriving DecidableEq

def Container.entryLookup (c : Container) (p : String) : Option (Except DecodeErr Chunk) :=
  ((c.entries).find? (fun e => e.1 == p)).map (·.2)

/-- `self._iwa_to_dict(path)` followed by `convert`: `KeyError` when the
name is absent from the zip, the conversion error otherwise. -/
def Container.readEntry (c : Container) (p : String) : Except PyErr Chunk :=
  match c.entryLookup p with
  | none => .error .keyError
  | some (.error e) => .error (.convertError e)
  | some (.ok ch) => .ok ch

/-- `comp.locator or comp.preferredLocator` (Python `or` falls through on
an empty string as well as on `None`). -/
def Component.locatorPath (comp : Component) : String :=
  match comp.locator with
  | some l => if l = "" then comp.preferredLocator else l
  | none => comp.preferredLocator

def slideEntryPath (comp : Component) : String :=
  "Index/" ++ comp.locatorPath ++ ".iwa"

/-- The loop body of `KeynoteFile.slides` (lines 885-904) fused with the
`Document.slide_nodes` generator (lines 785-788) it consumes lazily:

* each tree reference is resolved through the shared store
  (`slide_id.archive()`); a missing key is an uncaught `KeyError`;
* `next_object_of_type(KN_SlideNodeArchive)` is wrapped in
  `suppress(StopIteration)`: a non-matching archive yields no node and
  consumes no enumerate index;
* `node.slide.identifier` on a `None` slide raises `AttributeError`
  and `get_component` raises `KeyError`, both outside the `try`;
* reading/converting the slide entry is inside the `try`: a failure is
  logged and the slide skipped, the index having been consumed;
* converting a slide chunk registers its archives in the store before
  the next tree reference is resolved. -/
def kfSlidesGo (c : Container) (pm : TSP_PackageMetadata) :
    List Ref → Nat → Store → Except PyErr (List Slide × Store)
  | [], _, s => .ok ([], s)
  | r :: rest, i, s =>
    match Ref.archive s r with
    | none => .error .keyError
    | some arch =>
      match (arch.objects.filterMap isSlideNodeArchive?).head? with
      | none => kfSlidesGo c pm rest i s
      | some node =>
        match node.slide with
        | none => .error .attributeError
        | some slideRef =>
          match pm.get_component slideRef.identifier with
          | none => .error .keyError
          | some comp =>
            match c.readEntry (slideEntryPath comp) with
            | .error _ => kfSlidesGo c pm rest (i + 1) s
            | .ok ch =>
              match kfSlidesGo c pm rest (i + 1) (registerChunk s ch) with
              | .error e => .error e
              | .ok (sl, s') =>
                .ok ({ number := i, archives := ch.archives, node := node } :: sl, s')

/-- `str(self.path).split("Dropbox (HMS)")[-1]`. -/
def recordPath (p : String) : String :=
  (p.splitOn "Dropbox (HMS)").getLastD ""

/-- `[slide.record() for slide in self.slides]`: records are produced in
slide-list order, and the first failing `record()` aborts the whole
`KeynoteFile.record`. -/
def recordsOf (docIdent : String) (pm : TSP_PackageMetadata) :
    List Slide → Except PyErr (List SlideRecord)
  | [] => .ok []
  | s :: rest =>
    match Slide.record docIdent pm s with
    | .error e => .error e
    | .ok r =>
      match recordsOf docIdent pm rest with
      | .error e => .error e
      | .ok rs => .ok (r :: rs)

/-- `KeynoteFile.record` (lines 923-931), with the lazy properties it
forces in evaluation order: `revision` and `file_format_version` build
and register the metadata chunk, `slides` builds and registers the
document chunk, resolves the show and walks the tree, and finally
`slide.record()` runs per slide.  The store is the explicit image of
the class-level `Archive._store`. -/
def kfRecord (c : Container) (s0 : Store) : Except PyErr (DocRecord × Store) :=
  match c.metadataChunk with
  | .error e => .error (.convertError e)
  | .ok metaChunk =>
    let s1 := registerChunk s0 metaChunk
    match Metadata.package_metadata metaChunk with
    | .error e => .error e
    | .ok none => .error .attributeError
    | .ok (some pm) =>
      match c.documentChunk with
      | .error e => .error (.convertError e)
      | .ok docChunk =>
        let s2 := registerChunk s1 docChunk
        match Document.document_archive docChunk with
        | .error e => .error e
        | .ok none => .error .attributeError
        | .ok (some da) =>
          match Ref.archive s2 da.showRef with
          | none => .error .keyError
          | some showArch =>
            match showArch.next_object_of_type isShowArchive? with
            | .error e => .error e
            | .ok sa =>
              match kfSlidesGo c pm sa.slideTree.slides 0 s2 with
              | .error e => .error e
              | .ok (slides, s3) =>
                match recordsOf c.docIdent pm slides with
                | .error e => .error e
                | .ok recs =>
                  .ok ({ path := recordPath c.path,
                         id := c.docIdent,
                         revision := pm.revision.identifier,
                         file_format_version := pm.fileFormatVersion.str,
                         slides := recs }, s3)

/-! ## Projections used to state claims without fixing store literals -/

def slidesOf : Except PyErr (List Slide × Store) → Option (List Slide)
  | .ok (sl, _) => some sl
  | .error _ => none

def recOf : Except PyErr (DocRecord × Store) → Option DocRecord
  | .ok (r, _) => some r
  | .error _ => none

/-- The second of two back-to-back extractions of the same container:
the first runs on an empty store, the second on the store the first
left behind (the class-level registry persists across invocations). -/
def kfSecondRun (c : Container) : Except PyErr (DocRecord × Store) :=
  match kfRecord c Store.nil with
  | .ok (_, s1) => kfRecord c s1
  | .error e => .error e
/-- The tag strings of every `PBtype` subclass declared in model.py
(the closed msgspec tagged union `ArchiveObject`, line 749); the tag of
class `A_B` is `"A.B"` via the `tag=lambda x: x.replace("_", ".")`
declaration on `PBtype` (lines 84-90). -/
def knownTags : List String :=
  ["TSP.PackageMetadata", "TSP.DataMetadataMap", "TSP.DataMetadata", "KN.DocumentArchive",
   "KN.ShowArchive", "KN.SlideNodeArchive", "TSWP.StorageArchive", "TSP.ArchiveInfo",
   "TSP.DataReference", "TSP.SparseReferenceArray", "TSP.Entry", "TSP.Point",
   "TSP.Range", "TSP.Date", "TSP.IndexSet", "TSP.Color", "TSP.Path", "TSP.Element",
   "TSP.ReferenceDictionary", "TSP.UUID", "TSP.CFUUIDArchive", "TSP.UUIDSetArchive",
   "TSP.UUIDMapArchive", "TSP.UUIDMultiMapArchive", "TSP.UUIDCoordArchive",
   "TSP.UUIDRectArchive", "TSP.SparseUUIDArray", "TSP.UUIDPath", "TSP.SparseUUIDPathArray",
   "TSP.PasteboardObject", "TSP.ObjectCollection", "TSP.ObjectContainer",
   "TSP.DataAttributes", "TSP.LargeArraySegment", "TSP.LargeNumberArraySegment",
   "TSP.LargeStringArraySegment", "TSP.OptionalElement", "TSP.LargeUUIDArraySegment",
   "TSP.LargeLazyObjectArraySegment", "TSP.LargeObjectArraySegment", "TSP.LargeArray",
   "TSP.LargeNumberArray", "TSP.LargeStringArray", "TSP.LargeLazyObjectArray",
   "TSP.LargeObjectArray", "TSP.LargeUUIDArray", "TSP.FieldOptions", "TSP.FieldPath",
   "TSP.ComponentInfo", "TSP.ComponentExternalReference", "TSP.ComponentDataReference",
   "TSP.ObjectReference", "TSP.ObjectUUIDMapEntry", "TSP.FeatureInfo", "TSP.DocumentRevision",
   "TSP.PasteboardMetadata", "TSP.DataInfo", "TSP.DataMetadataMapEntry", "TSP.EncryptionInfo",
   "TSP.EncryptionBlockInfo", "TSP.ViewStateMetadata", "TSP.ObjectSerializationMetadata",
   "TSP.ObjectSerializationDirectory", "TSP.DataPropertiesEntryV1", "TSP.DataPropertiesV1",
   "TSP.DocumentMetadata", "TSP.SupportMetadata", "TSP.DataCollaborationProperties",
   "TSA.FunctionBrowserStateArchive", "TSA.CaptionInfoArchive", "TSA.CaptionPlacementArchive",
   "TST.TableStylePresetArchive", "TST.TableStyleNetworkArchive", "TSK.TreeNode",
   "TSK.LocalCommandHistoryItem", "TSK.LocalCommandHistoryArray", "TSK.LocalCommandHistoryArraySegment",
   "TSK.LocalCommandHistory", "TSK.CollaborationCommandHistoryArray", "TSK.CollaborationCommandHistoryArraySegment",
   "TSK.CollaborationCommandHistory", "TSK.ItemList", "TSK.CollaborationCommandHistoryItem",
   "TSK.CollaborationCommandHistoryCoalescingGroup", "TSK.CollaborationCommandHistoryCoalescingGroupNode",
   "TSK.CollaborationCommandHistoryOriginatingCommandAcknowledgementObserver",
   "TSK.DocumentArchive", "TSK.FormattingSymbolsArchive", "TSK.CurrencySymbol",
   "TSK.DocumentSupportCollaborationState", "TSK.DocumentSupportArchive",
   "TSK.ViewStateArchive", "TSK.CommandArchive", "TSK.CommandGroupArchive",
   "TSK.InducedCommandCollectionArchive", "TSK.PropagatedCommandCollectionArchive",
   "TSK.FinalCommandPairArchive", "TSK.CommandContainerArchive", "TSK.ProgressiveCommandGroupArchive",
   "TSK.FormatStructArchive", "TSK.CustomFormatArchive", "TSK.Condition",
   "TSK.CustomFormatListArchive", "TSK.AnnotationAuthorArchive", "TSK.DeprecatedChangeAuthorArchive",
   "TSK.AnnotationAuthorStorageArchive", "TSK.SetAnnotationAuthorColorCommandArchive",
   "TSK.SetActivityAuthorShareParticipantIDCommandArchive", "TSK.CommandBehaviorSelectionPathStorageArchive",
   "TSK.CommandBehaviorArchive", "TSK.CommandSelectionBehaviorArchive", "TSK.SelectionPathTransformerArchive",
   "TSK.SelectionPathArchive", "TSK.DocumentSelectionArchive", "TSK.IdOperationArgs",
   "TSK.AddIdOperationArgs", "TSK.RemoveIdOperationArgs", "TSK.RearrangeIdOperationArgs",
   "TSK.IdPlacementOperationArgs", "TSK.NullCommandArchive", "TSK.GroupCommitCommandArchive",
   "TSK.UpgradeDocPostProcessingCommandArchive", "TSK.InducedCommandCollectionCommitCommandArchive",
   "TSK.ActivityCommitCommandArchive", "TSK.ExecuteTestBetweenRollbackAndReapplyCommandArchive",
   "TSK.ChangeDocumentPackageTypeCommandArchive", "TSK.CreateLocalStorageSnapshotCommandArchive",
   "TSK.BlockDiffsAtCurrentRevisionCommand", "TSK.RangeAddress", "TSK.Operation",
   "TSK.OperationTransformer", "TSK.TransformerEntry", "TSK.OutgoingCommandQueueItem",
   "TSK.OutgoingCommandQueueItemUUIDToDataMapEntry", "TSK.CollaborationAppliedCommandDocumentRevisionMapping",
   "TSK.CollaborationDocumentSessionState", "TSK.AcknowledgementObserverEntry",
   "TSK.NativeContentDescription", "TSK.StructuredTextImportSettings", "TSK.OperationStorageCommandOperationsEntry",
   "TSK.OperationStorageEntry", "TSK.OperationStorageEntryArray", "TSK.OperationStorageEntryArraySegment",
   "TSK.OperationStorage", "TSK.OutgoingCommandQueue", "TSK.OutgoingCommandQueueSegment",
   "TSK.DataReferenceRecord", "TSK.ContainerUUIDToReferencedDataPair", "TSK.CommandAssetChunkArchive",
   "TSK.AssetUploadStatusCommandArchive", "TSK.AssetUploadStatusInfo", "TSK.AssetUnmaterializedOnServerCommandArchive",
   "TSK.PencilAnnotationUIState", "TSK.CollaboratorCursorArchive", "TSK.ActivityStreamArchive",
   "TSK.ActivityStreamActivityArray", "TSK.ActivityStreamActivityArraySegment",
   "TSK.ActivityArchive", "TSK.ActivityAuthorArchive", "TSK.CommandActivityBehaviorArchive",
   "TSK.ActivityCursorCollectionArchive", "TSK.ActivityCursorCollectionPersistenceWrapperArchive",
   "TSK.ActivityNavigationInfoArchive", "TSK.CommentActivityNavigationInfoArchive",
   "TSK.ActivityAuthorCacheArchive", "TSK.ShareParticipantIDCache", "TSK.PublicIDCache",
   "TSK.IndexCache", "TSK.FirstJoinCache", "TSK.ActivityOnlyCommandArchive",
   "TSK.ActivityNotificationItemArchive", "TSK.ActivityNotificationParticipantCacheArchive",
   "TSK.UniqueIdentifierAndAttempts", "TSK.ActivityNotificationQueueArchive",
   "TSK.ActivityStreamTransformationStateArchive", "TSK.ActivityStreamActivityCounterArchive",
   "TSK.ActionTypeCounter", "TSK.CursorTypeCounter", "TSK.ActivityStreamRemovedAuthorAuditorPendingStateArchive",
   "TSK.DateToAuditAndType", "TSWP.SelectionArchive", "TSWP.StringAttributeTable",
   "TSWP.StringAttribute", "TSWP.OverlappingFieldAttributeTable", "TSWP.OverlappingFieldAttribute",
   "TSWP.HighlightArchive", "TSWP.PencilAnnotationArchive", "TSWP.FontFeatureArchive",
   "TSWP.CharacterStylePropertiesArchive", "TSWP.CharacterStyleArchive", "TSWP.TabArchive",
   "TSWP.TabsArchive", "TSWP.LineSpacingArchive", "TSWP.ParagraphStylePropertiesArchive",
   "TSWP.ParagraphStyleArchive", "TSWP.ListStyleArchive", "TSWP.LabelGeometry",
   "TSWP.LabelImage", "TSWP.TextStylePresetArchive", "TSWP.ColumnsArchive",
   "TSWP.EqualColumnsArchive", "TSWP.NonEqualColumnsArchive", "TSWP.GapWidthArchive",
   "TSWP.PaddingArchive", "TSWP.ColumnStylePropertiesArchive", "TSWP.ColumnStyleArchive",
   "TSWP.ShapeStylePropertiesArchive", "TSWP.ShapeStyleArchive", "TSWP.ThemePresetsArchive",
   "TSWP.TextPresetDisplayItemArchive", "TSWP.TOCEntryStylePropertiesArchive",
   "TSWP.TOCEntryStyleArchive", "TSWP.TOCSettingsArchive", "TSWP.TOCEntryData",
   "TSWP.TOCEntryInstanceArchive", "TSWP.UndoTransaction", "TSWP.GenericTransaction",
   "TSWP.TextTransaction", "TSWP.CharIndexTransaction", "TSWP.ReplaceCharIndexTransaction",
   "TSWP.AttributeIndexTransaction", "TSWP.InsertAttributeTransaction", "TSWP.InsertNilTransaction",
   "TSWP.CharDeltaTransaction", "TSWP.ParagraphDataTransaction", "TSWP.ObjectDOLCTransaction",
   "TSWP.CTDateTransaction", "TSWP.UnionTransaction", "TSWP.StorageAction",
   "TSWP.StorageActionGroup", "TSWP.UndoTransactionWrapperArchive", "TSWP.ShapeInfoArchive",
   "TSWP.CommentInfoArchive", "TSWP.TOCInfoArchive", "TSWP.TOCLayoutHintArchive",
   "TSWP.EquationInfoArchive", "TSWP.TextualAttachmentArchive", "TSWP.TSWPTOCPageNumberAttachmentArchive",
   "TSWP.UIGraphicalAttachment", "TSWP.DrawableAttachmentArchive", "TSWP.TOCAttachmentArchive",
   "TSWP.FootnoteReferenceAttachmentArchive", "TSWP.NumberAttachmentArchive",
   "TSWP.SmartFieldArchive", "TSWP.HyperlinkFieldArchive", "TSWP.PlaceholderSmartFieldArchive",
   "TSWP.UnsupportedHyperlinkFieldArchive", "TSWP.BibliographySmartFieldArchive",
   "TSWP.CitationRecordArchive", "TSWP.CitationSmartFieldArchive", "TSWP.DateTimeSmartFieldArchive",
   "TSWP.BookmarkFieldArchive", "TSWP.FilenameSmartFieldArchive", "TSWP.MergeFieldTypeArchive",
   "TSWP.MergeSmartFieldArchive", "TSWP.TOCSmartFieldArchive", "TSWP.TOCEntry",
   "TSWP.RubyFieldArchive", "TSWP.TateChuYokoFieldArchive", "TSWP.ChangeArchive",
   "TSWP.ChangeSessionArchive", "TSWP.SectionPlaceholderArchive", "TSWP.HyperlinkSelectionArchive",
   "TSWP.DateTimeSelectionArchive", "TSWP.FlowInfoArchive", "TSWP.FlowInfoContainerArchive",
   "TSWP.DropCapArchive", "TSWP.DropCapStylePropertiesArchive", "TSWP.DropCapStyleArchive",
   "TSWP.CollaboratorTextCursorSubselectionArchive", "KN.AnimationAttributesArchive",
   "KN.TransitionAttributesArchive", "KN.TransitionArchive", "KN.BuildChunkArchive",
   "KN.BuildChunkIdentifierArchive", "KN.BuildAttributeValueArchive", "KN.BuildAttributeTupleArchive",
   "KN.BuildAttributesArchive", "KN.BuildArchive", "KN.PlaceholderArchive",
   "KN.NoteArchive", "KN.ClassicStylesheetRecordArchive", "KN.ClassicThemeRecordArchive",
   "KN.SlideArchive", "KN.SageTagMapEntry", "KN.InstructionalTextMap", "KN.InstructionalTextMapEntry",
   "KN.SlideSpecificHyperlinkMapEntry", "KN.DesktopUILayoutArchive", "KN.UIStateArchive",
   "KN.IOSRestorableViewStateRootArchive", "KN.IOSSavedPlaybackStateArchive",
   "KN.CanvasSelectionArchive", "KN.ActionGhostSelectionArchive", "KN.ThemeCustomTimingCurveArchive",
   "KN.ThemeArchive", "KN.SlideStylePropertiesArchive", "KN.SlideStyleArchive",
   "KN.PasteboardNativeStorageArchive", "KN.LiveVideoSourcePair", "KN.PrototypeForUndoTemplateChangeArchive",
   "KN.RecordingArchive", "KN.RecordingSyncState", "KN.RecordingCorrectionHistory",
   "KN.RecordingEventTrackArchive", "KN.RecordingEventArchive", "KN.RecordingNavigationEventArchive",
   "KN.RecordingLaserEventArchive", "KN.RecordingPauseEventArchive", "KN.RecordingMovieEventArchive",
   "KN.RecordingMovieTrackArchive", "KN.MovieSegmentArchive", "KN.Soundtrack",
   "KN.SlideNumberAttachmentArchive", "KN.SlideCollectionSelectionArchive",
   "KN.OutlineSelection", "KN.PresenterNotesSelectionArchive", "KN.MixedIdOperationArgs",
   "KN.LiveVideoInfo", "KN.LiveVideoSource", "KN.LiveVideoSourceCollaborationCommandUsageState",
   "KN.LiveVideoCaptureDeviceDescription", "KN.LiveVideoSourceCollection",
   "KN.LiveVideoSourceUsageEntry", "KN.MotionBackgroundStylePropertiesArchive",
   "KN.MotionBackgroundStyleArchive", "KN.MotionBackgroundFillArchive", "TSD.EdgeInsetsArchive",
   "TSD.GeometryArchive", "TSD.PointPathSourceArchive", "TSD.ScalarPathSourceArchive",
   "TSD.BezierPathSourceArchive", "TSD.CalloutPathSourceArchive", "TSD.ConnectionLinePathSourceArchive",
   "TSD.EditableBezierPathSourceArchive", "TSD.Node", "TSD.Subpath", "TSD.PathSourceArchive",
   "TSD.AngleGradientArchive", "TSD.TransformGradientArchive", "TSD.GradientArchive",
   "TSD.GradientStop", "TSD.ImageFillArchive", "TSD.FillArchive", "TSD.StrokePatternArchive",
   "TSD.StrokeArchive", "TSD.SmartStrokeArchive", "TSD.FrameArchive", "TSD.PatternedStrokeArchive",
   "TSD.LineEndArchive", "TSD.ShadowArchive", "TSD.DropShadowArchive", "TSD.ContactShadowArchive",
   "TSD.CurvedShadowArchive", "TSD.ReflectionArchive", "TSD.ImageAdjustmentsArchive",
   "TSD.ShapeStylePropertiesArchive", "TSD.ShapeStyleArchive", "TSD.MediaStylePropertiesArchive",
   "TSD.MediaStyleArchive", "TSD.ThemePresetsArchive", "TSD.ThemeReplaceFillPresetCommandArchive",
   "TSD.DrawableArchive", "TSD.ContainerArchive", "TSD.GroupArchive", "TSD.FreehandDrawingAnimationArchive",
   "TSD.FreehandDrawingArchive", "TSD.ShapeArchive", "TSD.ConnectionLineArchive",
   "TSD.ImageArchive", "TSD.MaskArchive", "TSD.ImageDataAttributes", "TSD.MovieArchive",
   "TSD.ExteriorTextWrapArchive", "TSD.DrawableContentDescription", "TSD.FreehandDrawingContentDescription",
   "TSD.FreehandDrawingToolkitUIState", "TSD.StandinCaptionArchive", "TSD.GuideArchive",
   "TSD.UserDefinedGuideArchive", "TSD.GuideStorageArchive", "TSD.CanvasSelectionArchive",
   "TSD.DrawableSelectionArchive", "TSD.GroupSelectionArchive", "TSD.PathSelectionArchive",
   "TSD.InfoHyperlinkSelectionArchive", "TSD.CommentStorageArchive", "TSD.ReplaceAnnotationAuthorCommandArchive",
   "TSD.PencilAnnotationArchive", "TSD.PencilAnnotationSelectionArchive",
   "TSD.PencilAnnotationStorageArchive", "TSD.SpecColorFillSetColorArchive",
   "TSD.SpecFrameSetAssetScaleArchive", "TSD.SpecGradientFillSetAngleArchive",
   "TSD.SpecImageFillSetTechniqueArchive", "TSD.SpecReflectionSetOpacityArchive",
   "TSD.SpecShadowSetAngleArchive", "TSD.SpecShadowSetColorArchive", "TSD.SpecShadowSetOffsetArchive",
   "TSD.SpecShadowSetOpacityArchive", "TSD.SpecShadowSetRadiusArchive", "TSD.SpecStrokeSetColorArchive",
   "TSD.SpecStrokeSetPatternArchive", "TSD.SpecStrokeSetWidthArchive", "TSD.Attribution",
   "TSD.MovieFingerprint", "TSD.MovieFingerprintTrack", "TSCH.ChartDrawableArchive",
   "TSCH.ChartArchive", "TSCH.ChartMultiDataIndexUpgrade", "TSCH.ChartGarlicMinMaxUpgrade",
   "TSCH.ChartGarlicLabelFormatUpgrade", "TSCH.ChartPasteboardAdditionsArchive",
   "TSCH.ChartPreserveAppearanceForPresetArchive", "TSCH.ChartSupportsProportionalBendedCalloutLinesArchive",
   "TSCH.ChartSupportsRoundedCornersArchive", "TSCH.ChartSupportsSeriesPropertySpacingArchive",
   "TSCH.ChartSupportsStackedSummaryLabelsArchive", "TSCH.ChartGridArchive",
   "TSCH.ChartGridRowColumnIdMap", "TSCH.Entry", "TSCH.ChartMediatorArchive",
   "TSCH.ChartFillSetArchive", "TSCH.ChartStylePreset", "TSCH.ChartPresetsArchive",
   "TSCH.PropertyValueStorageContainerArchive", "TSCH.StylePasteboardDataArchive",
   "TSCH.ChartSelectionPathTypeArchive", "TSCH.ChartAxisIDArchive", "TSCH.ChartSelectionPathArgumentArchive",
   "TSCH.ChartSelectionPathArchive", "TSCH.ChartSelectionArchive", "TSCH.ChartCDESelectionArchive",
   "TSCH.ChartUIState", "TSCH.ChartUIStateMultiDataIndexUpgrade", "TSCH.ChartFormatStructExtensions",
   "TSCH.ChartReferenceLineNonStyleItem", "TSCH.ChartAxisReferenceLineNonStylesArchive",
   "TSCH.ChartAxisReferenceLineStylesArchive", "TSCH.ChartReferenceLinesArchive",
   "TSCH.ChartPresetReferenceLineStylesArchive", "TSCH.ChartAxisReferenceLineSparseNonStylesArchive",
   "TSCH.PropertyValueStorageContainerReferenceLinesArchive", "TSCH.CollaboratorCDECursorSubselectionArchive",
   "TSCH.CollaboratorChartTitleCursorSubselectionArchive"]

/-- msgspec conversion of one `ArchiveObject` union member at tag
granularity: a tagged union decodes by matching the `_pbtype` tag
against the members' tags, and a tag matching no member raises a
`ValidationError` — there is no opaque catch-all member in the union. -/
def convertArchiveObjectTag (tag : String) : Except DecodeErr Unit :=
  if knownTags.contains tag then .ok () else .error (.invalidTag tag)

/-- Conversion of a whole `objects` list: the first invalid tag aborts
the conversion of the containing archive, chunk and document. -/
def convertObjectsTags : List String → Except DecodeErr Unit
  | [] => .ok ()
  | t :: ts =>
    match convertArchiveObjectTag t with
    | .error e => .error e
    | .ok _ => convertObjectsTags ts

/-! ## keynote.py text extraction (`Slide._find_text`, lines 240-258)

Objects there are protobuf messages; a storage message is one whose
descriptor is `TSWP.StorageArchive` with a `text` field, and its `kind`
is the enum's integer value (`PRESENTER_KIND = 4`). -/

inductive KMsg where
  | storage (kind : Nat) (text : List String)
  | other (name : String)
deriving DecidableEq

/-- `Slide._find_text`: a storage message with non-empty text extends
`presenter_notes` when `kind == PRESENTER_KIND`, else extends `blocks`;
the result is the pair `(blocks, presenter_notes)`. -/
def find_text (archives : List (List KMsg)) : List String × List String :=
  archives.foldl
    (fun acc objs =>
      objs.foldl
        (fun acc m =>
          match m with
          | .storage kind txt =>
              if txt = [] then acc
              else if kind = 4 then (acc.1, acc.2 ++ txt)
              else (acc.1 ++ txt, acc.2)
          | .other _ => acc)
        acc)
    ([], [])

/-! ## Base64 padding lemmas -/

theorem b64Char_ne_pad (n : Nat) : ¬ b64Char n = '=' := by
  by_cases h : n < b64Alphabet.length
  · rw [b64Char, List.getD_eq_getElem _ _ h]
    have hall : ∀ c ∈ b64Alphabet, ¬ c = '=' := by decide
    exact hall _ (List.getElem_mem _)
  · rw [b64Char, List.getD_eq_default _ _ (Nat.le_of_not_lt h)]
    decide

theorem rstripEq_cons (c : Char) (h : ¬ c = '=') (cs : List Char) :
    rstripEq (c :: cs) = c :: rstripEq cs := by
  unfold rstripEq
  rw [List.reverse_cons, List.dropWhile_append]
  by_cases hcs : (cs.reverse.dropWhile fun x => x == '=') = []
  · have hc : (c == '=') = false := beq_eq_false_iff_ne.mpr h
    simp [hcs, List.dropWhile, hc]
  · simp [hcs]

/-- Stripping the trailing '=' characters from padded urlsafe base64
yields exactly the padding-free urlsafe base64 encoding. -/
theorem rstrip_b64_padded (bs : List Nat) :
    rstripEq (b64UrlPadded bs) = b64UrlNoPad bs := by
  induction bs using b64UrlPadded.induct with
  | case1 b1 b2 b3 rest ih =>
      simp only [b64UrlPadded, b64UrlNoPad]
      rw [rstripEq_cons _ (b64Char_ne_pad _), rstripEq_cons _ (b64Char_ne_pad _),
          rstripEq_cons _ (b64Char_ne_pad _), rstripEq_cons _ (b64Char_ne_pad _), ih]
  | case2 b1 b2 =>
      simp only [b64UrlPadded, b64UrlNoPad]
      rw [rstripEq_cons _ (b64Char_ne_pad _), rstripEq_cons _ (b64Char_ne_pad _),
          rstripEq_cons _ (b64Char_ne_pad _)]
      rfl
  | case3 b1 =>
      simp only [b64UrlPadded, b64UrlNoPad]
      rw [rstripEq_cons _ (b64Char_ne_pad _), rstripEq_cons _ (b64Char_ne_pad _)]
      rfl
  | case4 => rfl

/-- C1: the derived stable slide id equals the URL-safe base64 encoding,
with trailing '=' padding stripped, of the first 16 bytes of the SHA-256
hash of the UTF-8 encoding of str(document UUID) ++ str(revision) ++
str(slide native identifier), and it is a pure function of that triple:
identical inputs always produce the identical id. -/
theorem stable_slide_id_spec (docIdent revision : String) (slideId : Nat) :
    global_slide_uuid docIdent revision slideId = specStableSlideId docIdent revision slideId ∧
    ∀ (d' r' : String) (n' : Nat), docIdent = d' → revision = r' → slideId = n' →
      global_slide_uuid docIdent revision slideId = global_slide_uuid d' r' n' := by
  constructor
  · simp only [global_slide_uuid, specStableSlideId, rstrip_b64_padded]
  · rintro d' r' n' rfl rfl rfl
    rfl

/-- Witness for `stable_slide_id_spec` at a concrete triple. -/
theorem stable_slide_id_spec_witness :
    global_slide_uuid "d" "r" 10 = specStableSlideId "d" "r" 10 ∧
    global_slide_uuid "d" "r" 10 = global_slide_uuid "d" "r" 10 :=
  ⟨(stable_slide_id_spec "d" "r" 10).1,
   (stable_slide_id_spec "d" "r" 10).2 "d" "r" 10 rfl rfl rfl⟩

/-! ## Concrete fixtures -/

/-- A slide node with a thumbnail reference (data item 7). -/
def nodeThumb7 : KN_SlideNodeArchive :=
  { hasBuilds := false, hasNote := false, hasTransition := false,
    isSkipped := false, isSlideNumberVisible := true, thumbnailsAreDirty := false,
    slide := some ⟨10⟩, thumbnails := [⟨7⟩] }

/-- A slide node with no thumbnail reference at all. -/
def nodeNoThumb : KN_SlideNodeArchive :=
  { hasBuilds := false, hasNote := false, hasTransition := false,
    isSkipped := false, isSlideNumberVisible := true, thumbnailsAreDirty := false,
    slide := some ⟨10⟩, thumbnails := [] }

/-- Package metadata whose data item 7 has the stored digest "a=b"
(an interior '=' separates the two remappings of `_safe_hash`). -/
def pmDigest : TSP_PackageMetadata :=
  { components := [{ identifier := 10, preferredLocator := "Slide10" }],
    datas := [{ identifier := 7, digest := "a=b", preferredFileName := "t.jpg" }],
    fileFormatVersion := ⟨2, 1, 0⟩, revision := ⟨"r"⟩ }

/-- A slide whose only text object is an ordinary text box "hello". -/
def slideHello : Slide :=
  { number := 0,
    archives := [{ header := ⟨10⟩,
                   objects := [.storageArchive { kind := some "TEXTBOX", text := ["hello"] }] }],
    node := nodeNoThumb }

/-- A slide whose only text-storage object is tagged as presenter notes. -/
def slideNoteOnly : Slide :=
  { number := 0,
    archives := [{ header := ⟨50⟩,
                   objects := [.storageArchive { kind := some "NOTE", text := ["secret note"] }] }],
    node := nodeThumb7 }

/-- A slide with a thumbnail whose stored digest is "a=b". -/
def slideDigest : Slide :=
  { number := 0, archives := [{ header := ⟨10⟩, objects := [] }], node := nodeThumb7 }

def thumbDigestOf : Except PyErr SlideRecord → Option String
  | .ok r => some r.thumb_digest
  | .error _ => none

/-! ## C2 -/

/-- C2: evaluation of the engine at a slide whose single text-storage
object is kind "NOTE": `Slide.text_blocks` has no kind check, so the
note text appears in `text_blocks` as well as in `presenter_notes`,
contradicting the claimed separation; the sibling extractor
`Slide._find_text` of keynote.py does separate them (the note lands
only in the notes component). -/
theorem note_text_leaks_into_text_blocks :
    Slide.text_blocks slideNoteOnly = ["secret note"] ∧
    Slide.presenter_notes slideNoteOnly = "secret note" ∧
    find_text [[KMsg.storage 4 ["secret note"]]] = ([], ["secret note"]) := by
  decide

/-! ## C3 -/

/-- A container whose main document chunk fails conversion on an
unknown tag. -/
def containerBadDoc : Container :=
  { path := "/x/deck.key", docIdent := "d",
    documentChunk := .error (.invalidTag "TSP.FutureArchive"),
    metadataChunk := .ok { archives := [{ header := ⟨5⟩, objects := [.packageMetadata pmDigest] }] },
    entries := [] }

/-- C3 counterexample: an archive-segment payload whose tag is not in
the registry does not decode to an opaque variant — the conversion
fails with a validation error, the conversion of the containing object
list fails, and a document whose main chunk contains such an object
fails to extract. -/
theorem unknown_tag_decode_fails :
    convertArchiveObjectTag "TSP.FutureArchive" = .error (.invalidTag "TSP.FutureArchive") ∧
    knownTags.contains "TSP.FutureArchive" = false ∧
    convertObjectsTags ["KN.DocumentArchive", "TSP.FutureArchive"]
      = .error (.invalidTag "TSP.FutureArchive") ∧
    (kfRecord containerBadDoc Store.nil).isOk = false := by
  decide

/-- C3 amended: a payload with a tag unknown to the registry fails
conversion with a validation error naming the tag (there is no opaque
fallback variant), and one such object anywhere in an objects list
makes the containing conversion fail. -/
theorem unknown_tag_validation_error (tag : String)
    (h : knownTags.contains tag = false) :
    convertArchiveObjectTag tag = .error (.invalidTag tag) ∧
    ∀ ts₁ ts₂, (∀ t ∈ ts₁, knownTags.contains t = true) →
      convertObjectsTags (ts₁ ++ tag :: ts₂) = .error (.invalidTag tag) := by
  have hbase : convertArchiveObjectTag tag = .error (.invalidTag tag) := by
    unfold convertArchiveObjectTag
    rw [h]
    rfl
  refine ⟨hbase, ?_⟩
  intro ts₁ ts₂ hall
  induction ts₁ with
  | nil => simp [convertObjectsTags, hbase]
  | cons t ts ih =>
      have ht : knownTags.contains t = true := hall t (by simp)
      have hconv : convertArchiveObjectTag t = .ok () := by
        unfold convertArchiveObjectTag
        rw [ht]
        rfl
      simpa [convertObjectsTags, hconv] using ih fun t' ht' => hall t' (by simp [ht'])

/-- Witness for `unknown_tag_validation_error` at a concrete tag. -/
theorem unknown_tag_validation_error_witness :
    convertArchiveObjectTag "KN.SlideArchive2099" = .error (.invalidTag "KN.SlideArchive2099") ∧
    convertObjectsTags (["TSWP.StorageArchive"] ++ "KN.SlideArchive2099" :: [])
      = .error (.invalidTag "KN.SlideArchive2099") :=
  ⟨(unknown_tag_validation_error "KN.SlideArchive2099" (by decide)).1,
   (unknown_tag_validation_error "KN.SlideArchive2099" (by decide)).2
     ["TSWP.StorageArchive"] [] (by decide)⟩

/-! ## C8 -/

theorem thumbDigestOf_record (docIdent : String) (pm : TSP_PackageMetadata)
    (s : Slide) (tref : Ref) (item : DataItem)
    (h1 : s.node.thumbnails.head? = some tref)
    (h2 : pm.get_data_item tref.identifier = some item)
    (h3 : (Slide.record docIdent pm s).isOk = true) :
    thumbDigestOf (Slide.record docIdent pm s) = some (safe_hash item.digest) := by
  simp only [Slide.record, h1, h2] at h3 ⊢
  cases ha : s.archives.head? with
  | none => simp [ha, Except.isOk, Except.toBool] at h3
  | some a0 => simp [ha, thumbDigestOf]

/-- C8 counterexample: for a slide whose stored thumbnail digest is
"a=b", the record's content digest is "ab" (the engine's `_safe_hash`
removes every '=' character), while the claimed transformation — strip
only trailing '=' — leaves "a=b"; so the claim's description of the
transformation is false on this slide. -/
theorem thumb_digest_strips_interior_eq :
    thumbDigestOf (Slide.record "d" pmDigest slideDigest) = some "ab" ∧
    specSafeHash "a=b" = "a=b" ∧
    safe_hash "a=b" = "ab" ∧
    ¬ ("ab" : String) = "a=b" := by
  decide

/-- C8 amended: the record's content digest is the stored metadata
digest for the thumbnail data item (never recomputed from bytes),
transformed by replacing '/' with '_', '+' with '-' and removing every
'=' character; two slides with equal stored digests get the same
derived safe-thumbnail-hash string. -/
theorem thumb_digest_from_stored (docIdent : String) (pm : TSP_PackageMetadata)
    (s : Slide) (tref : Ref) (item : DataItem)
    (h1 : s.node.thumbnails.head? = some tref)
    (h2 : pm.get_data_item tref.identifier = some item)
    (h3 : (Slide.record docIdent pm s).isOk = true) :
    thumbDigestOf (Slide.record docIdent pm s) = some (safe_hash item.digest) ∧
    ∀ (d2 : String) (pm2 : TSP_PackageMetadata) (s2 : Slide) (tref2 : Ref) (item2 : DataItem),
      s2.node.thumbnails.head? = some tref2 →
      pm2.get_data_item tref2.identifier = some item2 →
      (Slide.record d2 pm2 s2).isOk = true →
      item2.digest = item.digest →
      thumbDigestOf (Slide.record d2 pm2 s2) = thumbDigestOf (Slide.record docIdent pm s) := by
  refine ⟨thumbDigestOf_record docIdent pm s tref item h1 h2 h3, ?_⟩
  intro d2 pm2 s2 tref2 item2 g1 g2 g3 gd
  rw [thumbDigestOf_record d2 pm2 s2 tref2 item2 g1 g2 g3,
      thumbDigestOf_record docIdent pm s tref item h1 h2 h3, gd]

/-- Witness for `thumb_digest_from_stored`: the same stored digest on
two distinct slides yields the same safe hash. -/
theorem thumb_digest_from_stored_witness :
    thumbDigestOf (Slide.record "d" pmDigest slideDigest) = some (safe_hash "a=b") ∧
    thumbDigestOf (Slide.record "e" pmDigest { slideDigest with number := 1 })
      = thumbDigestOf (Slide.record "d" pmDigest slideDigest) :=
  ⟨(thumb_digest_from_stored "d" pmDigest slideDigest ⟨7⟩
      { identifier := 7, digest := "a=b", preferredFileName := "t.jpg" }
      (by decide) (by decide) (by decide)).1,
   (thumb_digest_from_stored "d" pmDigest slideDigest ⟨7⟩
      { identifier := 7, digest := "a=b", preferredFileName := "t.jpg" }
      (by decide) (by decide) (by decide)).2 "e" pmDigest
      { slideDigest with number := 1 } ⟨7⟩
      { identifier := 7, digest := "a=b", preferredFileName := "t.jpg" }
      (by decide) (by decide) (by decide) rfl⟩

/-! ## C9 -/

/-- C9 counterexample: a slide whose node carries no thumbnail
reference extracts its text and notes fine, but `Slide.record` raises
`IndexError` on `thumbnails[0]`, so the slide's output record is not
produced (and `KeynoteFile.record`, which maps `record` over the
slides, fails with it). -/
theorem no_thumbnail_record_fails :
    Slide.record "d" pmDigest slideHello = .error .indexError ∧
    Slide.text_blocks slideHello = ["hello"] ∧
    Slide.presenter_notes slideHello = "" := by
  decide

/-- C9 amended: for a slide whose node has no thumbnail reference, text
and notes extraction succeed and depend only on the slide's archives
(not on thumbnail availability), but the slide's record is not
produced: `record` fails with `IndexError`. -/
theorem no_thumbnail_text_still_extracted (docIdent : String)
    (pm : TSP_PackageMetadata) (s : Slide)
    (h : s.node.thumbnails = []) :
    Slide.record docIdent pm s = .error .indexError ∧
    ∀ (num' : Nat) (node' : KN_SlideNodeArchive),
      Slide.text_blocks { number := num', archives := s.archives, node := node' }
        = Slide.text_blocks s ∧
      Slide.presenter_notes { number := num', archives := s.archives, node := node' }
        = Slide.presenter_notes s := by
  constructor
  · unfold Slide.record
    rw [h]
    rfl
  · intro num' node'
    exact ⟨rfl, rfl⟩

/-- Witness for `no_thumbnail_text_still_extracted`. -/
theorem no_thumbnail_text_still_extracted_witness :
    Slide.record "d" pmDigest slideHello = .error .indexError ∧
    Slide.text_blocks { number := 7, archives := slideHello.archives, node := nodeThumb7 }
      = Slide.text_blocks slideHello :=
  ⟨(no_thumbnail_text_still_extracted "d" pmDigest slideHello (by decide)).1,
   ((no_thumbnail_text_still_extracted "d" pmDigest slideHello (by decide)).2 7 nodeThumb7).1⟩

/-! ## C10 -/

/-- C10: `Chunk.next_object_of_type` examines only the first archive of
the chunk: an empty chunk returns `None`; a chunk whose first archive
holds no object of the requested variant raises `StopIteration` even
when a later archive of the same chunk does hold one; a match in the
first archive returns the first matching object.  `Document.
document_archive` and `Metadata.package_metadata` are exactly this
lookup, so the root document object and the package metadata are found
only when they reside in the chunk's first archive. -/
theorem chunk_next_object_first_archive_only {α : Type}
    (f : ArchiveObject → Option α) (c : Chunk) :
    (c.archives = [] → Chunk.next_object_of_type f c = .ok none) ∧
    (∀ a rest, c.archives = a :: rest → a.objects.filterMap f = [] →
      (∃ b ∈ rest, ¬ b.objects.filterMap f = []) →
      Chunk.next_object_of_type f c = .error .stopIteration) ∧
    (∀ a rest x xs, c.archives = a :: rest → a.objects.filterMap f = x :: xs →
      Chunk.next_object_of_type f c = .ok (some x)) ∧
    Document.document_archive c = Chunk.next_object_of_type isDocumentArchive? c ∧
    Metadata.package_metadata c = Chunk.next_object_of_type isPackageMetadata? c := by
  refine ⟨?_, ?_, ?_, rfl, rfl⟩
  · intro h
    simp [Chunk.next_object_of_type, h]
  · intro a rest h hf _
    simp [Chunk.next_object_of_type, h, hf]
  · intro a rest x xs h hf
    simp [Chunk.next_object_of_type, h, hf]

def archStubOnly : Archive := { header := ⟨9⟩, objects := [.stub "TSK.TreeNode"] }

def archWithDoc : Archive := { header := ⟨8⟩, objects := [.documentArchive ⟨⟨2⟩⟩] }

/-- Witness for `chunk_next_object_first_archive_only`: an empty chunk
gives `None`; a chunk whose second (not first) archive holds the
document object raises `StopIteration`. -/
theorem chunk_next_object_first_archive_only_witness :
    Chunk.next_object_of_type isDocumentArchive? { archives := [] } = .ok none ∧
    Chunk.next_object_of_type isDocumentArchive? { archives := [archStubOnly, archWithDoc] }
      = .error .stopIteration :=
  ⟨(chunk_next_object_first_archive_only isDocumentArchive? { archives := [] }).1 rfl,
   (chunk_next_object_first_archive_only isDocumentArchive?
      { archives := [archStubOnly, archWithDoc] }).2.1 archStubOnly [archWithDoc]
      rfl (by decide) ⟨archWithDoc, by decide, by decide⟩⟩

/-! ## Store lemmas -/

theorem store_lookup_append (s t : Store) (k : Nat) (v : Archive)
    (h : Store.lookup s k = some v) : Store.lookup (s ++ t) k = some v := by
  induction s with
  | nil => simp [Store.lookup] at h
  | cons kv rest ih =>
      rw [List.cons_append]
      unfold Store.lookup at h ⊢
      by_cases hk : (kv.1 == k) = true
      · simp only [hk, if_true] at h ⊢
        exact h
      · simp only [eq_false_of_ne_true hk, if_false] at h ⊢
        exact ih h

theorem ref_archive_append (s t : Store) (r : Ref) (v : Archive)
    (h : Ref.archive s r = some v) : Ref.archive (s ++ t) r = some v :=
  store_lookup_append s t r.identifier v h

theorem registerChunk_append (s t : Store) (ch : Chunk) :
    registerChunk (s ++ t) ch = registerChunk s ch ++ t := by
  unfold registerChunk
  generalize ch.archives = l
  induction l generalizing s with
  | nil => rfl
  | cons a rest ih =>
      simp only [List.foldl_cons]
      rw [← List.cons_append]
      exact ih _

theorem registerChunk_shape (s : Store) (ch : Chunk) :
    registerChunk s ch = registerChunk Store.nil ch ++ s := by
  have h := registerChunk_append Store.nil s ch
  simpa using h

/-- Running the slide loop from a store extended on the right by `t`
produces the same slides and the same new registrations: every store
lookup that succeeded keeps its answer when older entries are appended
behind the store. -/
theorem kfSlidesGo_store_append (c : Container) (pm : TSP_PackageMetadata) (t : Store) :
    ∀ (refs : List Ref) (i : Nat) (s : Store) (sl : List Slide) (s' : Store),
    kfSlidesGo c pm refs i s = .ok (sl, s') →
    kfSlidesGo c pm refs i (s ++ t) = .ok (sl, s' ++ t) := by
  intro refs
  induction refs with
  | nil =>
      intro i s sl s' h
      simp only [kfSlidesGo] at h ⊢
      cases h
      rfl
  | cons r rest ih =>
      intro i s sl s' h
      simp only [kfSlidesGo] at h ⊢
      split at h
      · exact absurd h (by simp)
      · rename_i arch hl
        simp only [ref_archive_append s t r arch hl]
        split at h
        · rename_i hn
          try simp only [hn]
          exact ih i s sl s' h
        · rename_i node hn
          try simp only [hn]
          split at h
          · exact absurd h (by simp)
          · rename_i slideRef hs
            try simp only [hs]
            split at h
            · exact absurd h (by simp)
            · rename_i comp hc
              try simp only [hc]
              split at h
              · rename_i e he
                try simp only [he]
                exact ih (i + 1) s sl s' h
              · rename_i ch he
                try simp only [he]
                split at h
                · exact absurd h (by simp)
                · rename_i sl2 s2 hr
                  have h2 := ih (i + 1) (registerChunk s ch) sl2 s2 hr
                  simp only [registerChunk_append, h2]
                  cases h
                  rfl

/-- The slide loop only ever pushes registrations on top of the store it
was given. -/
theorem kfSlidesGo_store_growth (c : Container) (pm : TSP_PackageMetadata) :
    ∀ (refs : List Ref) (i : Nat) (s : Store) (sl : List Slide) (s' : Store),
    kfSlidesGo c pm refs i s = .ok (sl, s') → ∃ p, s' = p ++ s := by
  intro refs
  induction refs with
  | nil =>
      intro i s sl s' h
      simp only [kfSlidesGo] at h
      cases h
      exact ⟨[], rfl⟩
  | cons r rest ih =>
      intro i s sl s' h
      simp only [kfSlidesGo] at h
      split at h
      · exact absurd h (by simp)
      · rename_i arch hl
        split at h
        · exact ih i s sl s' h
        · rename_i node hn
          split at h
          · exact absurd h (by simp)
          · rename_i slideRef hs
            split at h
            · exact absurd h (by simp)
            · rename_i comp hc
              split at h
              · rename_i e he
                exact ih (i + 1) s sl s' h
              · rename_i ch he
                split at h
                · exact absurd h (by simp)
                · rename_i sl2 s2 hr
                  obtain ⟨p, hp⟩ := ih (i + 1) (registerChunk s ch) sl2 s2 hr
                  cases h
                  refine ⟨p ++ registerChunk Store.nil ch, ?_⟩
                  rw [hp, registerChunk_shape s ch, List.append_assoc]

/-- Whole-file extraction from a store extended on the right by `t`:
same record, same new registrations. -/
theorem kfRecord_store_append (c : Container) (s t : Store) (r : DocRecord) (s' : Store)
    (h : kfRecord c s = .ok (r, s')) :
    kfRecord c (s ++ t) = .ok (r, s' ++ t) := by
  simp only [kfRecord] at h ⊢
  split at h
  · exact absurd h (by simp)
  · rename_i metaChunk hmeta
    try simp only [hmeta]
    split at h
    · exact absurd h (by simp)
    · exact absurd h (by simp)
    · rename_i pm hpm
      try simp only [hpm]
      split at h
      · exact absurd h (by simp)
      · rename_i docChunk hdoc
        try simp only [hdoc]
        split at h
        · exact absurd h (by simp)
        · exact absurd h (by simp)
        · rename_i da hda
          try simp only [hda]
          simp only [registerChunk_append]
          split at h
          · exact absurd h (by simp)
          · rename_i showArch hshow
            simp only [ref_archive_append _ t _ _ hshow]
            split at h
            · exact absurd h (by simp)
            · rename_i sa hsa
              try simp only [hsa]
              split at h
              · exact absurd h (by simp)
              · rename_i slides s3 hloop
                simp only [kfSlidesGo_store_append c pm t _ _ _ _ _ hloop]
                split at h
                · exact absurd h (by simp)
                · rename_i recs hrecs
                  try simp only [hrecs]
                  cases h
                  rfl

/-- Whole-file extraction only ever pushes registrations on top of the
store it was given: the shared registry grows across invocations. -/
theorem kfRecord_store_growth (c : Container) (s : Store) (r : DocRecord) (s' : Store)
    (h : kfRecord c s = .ok (r, s')) : ∃ p, s' = p ++ s := by
  simp only [kfRecord] at h
  split at h
  · exact absurd h (by simp)
  · rename_i metaChunk hmeta
    split at h
    · exact absurd h (by simp)
    · exact absurd h (by simp)
    · rename_i pm hpm
      split at h
      · exact absurd h (by simp)
      · rename_i docChunk hdoc
        split at h
        · exact absurd h (by simp)
        · exact absurd h (by simp)
        · rename_i da hda
          split at h
          · exact absurd h (by simp)
          · rename_i showArch hshow
            split at h
            · exact absurd h (by simp)
            · rename_i sa hsa
              split at h
              · exact absurd h (by simp)
              · rename_i slides s3 hloop
                split at h
                · exact absurd h (by simp)
                · rename_i recs hrecs
                  obtain ⟨p, hp⟩ := kfSlidesGo_store_growth c pm _ _ _ _ _ hloop
                  cases h
                  refine ⟨p ++ (registerChunk Store.nil docChunk ++ registerChunk Store.nil metaChunk), ?_⟩
                  rw [hp, registerChunk_shape _ docChunk, registerChunk_shape s metaChunk]
                  simp [List.append_assoc]

/-! ## C6 -/

/-- C6: running the full extraction twice on the same unmodified
container — the second run starting from the class-level store the
first run left behind — produces identical Document records, slide
order, ordinals and stable ids included (the record is the whole
output, compared for equality). -/
theorem extraction_deterministic (c : Container)
    (h : (kfRecord c Store.nil).isOk = true) :
    (kfSecondRun c).isOk = true ∧
    recOf (kfSecondRun c) = recOf (kfRecord c Store.nil) := by
  cases hr : kfRecord c Store.nil with
  | error e =>
      rw [hr] at h
      simp [Except.isOk, Except.toBool] at h
  | ok p =>
      obtain ⟨r, s1⟩ := p
      have h2 := kfRecord_store_append c Store.nil s1 r s1 hr
      rw [show (Store.nil ++ s1 : Store) = s1 from List.nil_append s1] at h2
      have hs : kfSecondRun c = kfRecord c s1 := by
        unfold kfSecondRun
        rw [hr]
      rw [hs, h2]
      exact ⟨rfl, rfl⟩

/-- A small fully extractable container: one slide, one thumbnail, one
text box. -/
def containerOk : Container :=
  { path := "/x/Dropbox (HMS)/deck.key",
    docIdent := "d",
    documentChunk := .ok { archives :=
      [ { header := ⟨1⟩, objects := [.documentArchive { showRef := ⟨2⟩ }] },
        { header := ⟨2⟩, objects := [.showArchive { slideTree := { slides := [⟨3⟩] } }] },
        { header := ⟨3⟩, objects := [.slideNodeArchive nodeThumb7] } ] },
    metadataChunk := .ok { archives := [ { header := ⟨5⟩, objects := [.packageMetadata pmDigest] } ] },
    entries := [("Index/Slide10.iwa", .ok { archives :=
      [ { header := ⟨10⟩,
          objects := [.storageArchive { kind := some "TEXTBOX", text := ["hello"] }] } ] })] }

/-- Witness for `extraction_deterministic` on `containerOk`. -/
theorem extraction_deterministic_witness :
    (kfRecord containerOk Store.nil).isOk = true ∧
    (kfSecondRun containerOk).isOk = true ∧
    recOf (kfSecondRun containerOk) = recOf (kfRecord containerOk Store.nil) :=
  ⟨by decide,
   (extraction_deterministic containerOk (by decide)).1,
   (extraction_deterministic containerOk (by decide)).2⟩

/-! ## C4 -/

theorem store_lookup_register_not_mem (s : Store) (l : List Archive) (k : Nat)
    (h : ∀ a ∈ l, ¬ a.header.identifier = k) :
    Store.lookup (l.foldl (fun acc a => (a.header.identifier, a) :: acc) s) k
      = Store.lookup s k := by
  induction l generalizing s with
  | nil => rfl
  | cons a rest ih =>
      simp only [List.foldl_cons]
      rw [ih ((a.header.identifier, a) :: s) fun b hb => h b (List.mem_cons_of_mem a hb)]
      have hk : (a.header.identifier == k) = false :=
        beq_eq_false_iff_ne.mpr (h a (List.mem_cons_self a rest))
      show (if (a.header.identifier == k) = true then some a else Store.lookup s k)
        = Store.lookup s k
      rw [hk]
      simp

/-- C4 amended: the resolver registry is one shared store across
invocations.  Registering a new document's chunk leaves every binding
whose identifier the chunk does not re-register untouched — archives
registered while decoding one document stay resolvable while extracting
another — and extraction only ever pushes registrations on top of the
store it starts from, so prior documents' registrations persist. -/
theorem resolver_registry_shared (s : Store) (ch : Chunk) (k : Nat)
    (h : ∀ a ∈ ch.archives, ¬ a.header.identifier = k) :
    Store.lookup (registerChunk s ch) k = Store.lookup s k ∧
    ∀ c : Container, (kfRecord c s).isOk = true →
      ∃ p r, kfRecord c s = .ok (r, p ++ s) := by
  constructor
  · exact store_lookup_register_not_mem s ch.archives k h
  · intro c hok
    cases hr : kfRecord c s with
    | error e =>
        rw [hr] at hok
        simp [Except.isOk, Except.toBool] at hok
    | ok p =>
        obtain ⟨r, s'⟩ := p
        obtain ⟨p2, hp⟩ := kfRecord_store_growth c s r s' hr
        exact ⟨p2, r, by rw [hp]⟩

/-- Witness for `resolver_registry_shared`. -/
theorem resolver_registry_shared_witness :
    Store.lookup (registerChunk [(5, archStubOnly)] { archives := [archWithDoc] }) 5
      = Store.lookup [(5, archStubOnly)] 5 ∧
    ∃ p r, kfRecord containerOk [(5, archStubOnly)] = .ok (r, p ++ [(5, archStubOnly)]) :=
  ⟨(resolver_registry_shared [(5, archStubOnly)] { archives := [archWithDoc] } 5 (by decide)).1,
   (resolver_registry_shared [(5, archStubOnly)] { archives := [archWithDoc] } 5 (by decide)).2
      containerOk (by decide)⟩

/-- A slide node living in the donor document, never referenced by the
donor's own slide tree. -/
def nodeForeign : KN_SlideNodeArchive :=
  { hasBuilds := false, hasNote := false, hasTransition := false,
    isSkipped := false, isSlideNumberVisible := true, thumbnailsAreDirty := false,
    slide := some ⟨11⟩, thumbnails := [⟨7⟩] }

/-- The donor document: extracts fine on its own, and registers archive
300 (which its own tree never uses) in the shared store. -/
def containerDonor : Container :=
  { path := "/x/donor.key",
    docIdent := "d",
    documentChunk := .ok { archives :=
      [ { header := ⟨1⟩, objects := [.documentArchive { showRef := ⟨2⟩ }] },
        { header := ⟨2⟩, objects := [.showArchive { slideTree := { slides := [⟨3⟩] } }] },
        { header := ⟨3⟩, objects := [.slideNodeArchive nodeThumb7] },
        { header := ⟨300⟩, objects := [.slideNodeArchive nodeForeign] } ] },
    metadataChunk := .ok { archives := [ { header := ⟨5⟩, objects := [.packageMetadata pmDigest] } ] },
    entries := [("Index/Slide10.iwa", .ok { archives :=
      [ { header := ⟨10⟩,
          objects := [.storageArchive { kind := some "TEXTBOX", text := ["hello"] }] } ] })] }

/-- The victim document: its slide tree references archive 300, which
none of its own chunks register. -/
def containerVictim : Container :=
  { path := "/x/victim.key",
    docIdent := "v",
    documentChunk := .ok { archives :=
      [ { header := ⟨21⟩, objects := [.documentArchive { showRef := ⟨22⟩ }] },
        { header := ⟨22⟩, objects := [.showArchive { slideTree := { slides := [⟨300⟩] } }] } ] },
    metadataChunk := .ok { archives := [ { header := ⟨25⟩, objects := [.packageMetadata
      { components := [{ identifier := 11, preferredLocator := "SlideX" }],
        datas := [{ identifier := 7, digest := "dig2", preferredFileName := "x.jpg" }],
        fileFormatVersion := ⟨2, 1, 0⟩, revision := ⟨"rv"⟩ }] } ] },
    entries := [("Index/SlideX.iwa", .ok { archives :=
      [ { header := ⟨30⟩,
          objects := [.storageArchive { kind := some "TEXTBOX", text := ["stolen"] }] } ] })] }

def donorFinalStore : Store :=
  match kfRecord containerDonor Store.nil with
  | .ok (_, s) => s
  | .error _ => []

/-- C4 counterexample: extracting the victim from a fresh registry
fails (its tree reference 300 dangles), but extracting it from the
store the donor's extraction left behind succeeds by resolving
reference 300 to the archive the donor registered — one invocation
observes archive segments registered during the decode of a different
document, refuting the claimed isolation. -/
theorem cross_document_store_observed :
    (kfRecord containerDonor Store.nil).isOk = true ∧
    (kfRecord containerVictim Store.nil).isOk = false ∧
    (kfRecord containerVictim donorFinalStore).isOk = true := by
  decide

/-! ## C7 -/

theorem kfSlidesGo_length_le (c : Container) (pm : TSP_PackageMetadata) :
    ∀ (refs : List Ref) (i : Nat) (s : Store) (sl : List Slide) (s' : Store),
    kfSlidesGo c pm refs i s = .ok (sl, s') → sl.length ≤ refs.length := by
  intro refs
  induction refs with
  | nil =>
      intro i s sl s' h
      simp only [kfSlidesGo] at h
      cases h
      simp
  | cons r rest ih =>
      intro i s sl s' h
      simp only [kfSlidesGo] at h
      split at h
      · exact absurd h (by simp)
      · rename_i arch hl
        split at h
        · exact Nat.le_succ_of_le (ih i s sl s' h)
        · rename_i node hn
          split at h
          · exact absurd h (by simp)
          · rename_i slideRef hs
            split at h
            · exact absurd h (by simp)
            · rename_i comp hc
              split at h
              · rename_i e he
                exact Nat.le_succ_of_le (ih (i + 1) s sl s' h)
              · rename_i ch he
                split at h
                · exact absurd h (by simp)
                · rename_i sl2 s2 hr
                  have hle := ih (i + 1) (registerChunk s ch) sl2 s2 hr
                  cases h
                  simpa using hle

theorem kfSlidesGo_numbers (c : Container) (pm : TSP_PackageMetadata) :
    ∀ (refs : List Ref) (i : Nat) (s : Store) (sl : List Slide) (s' : Store),
    kfSlidesGo c pm refs i s = .ok (sl, s') → sl.length = refs.length →
    ∀ m (hm : m < sl.length), (sl.get ⟨m, hm⟩).number = i + m := by
  intro refs
  induction refs with
  | nil =>
      intro i s sl s' h hlen m hm
      simp only [kfSlidesGo] at h
      cases h
      exact absurd hm (by simp)
  | cons r rest ih =>
      intro i s sl s' h hlen m hm
      simp only [kfSlidesGo] at h
      split at h
      · exact absurd h (by simp)
      · rename_i arch hl
        split at h
        · have := kfSlidesGo_length_le c pm rest i s sl s' h
          rw [hlen] at this
          exact absurd this (by simp)
        · rename_i node hn
          split at h
          · exact absurd h (by simp)
          · rename_i slideRef hs
            split at h
            · exact absurd h (by simp)
            · rename_i comp hc
              split at h
              · rename_i e he
                have := kfSlidesGo_length_le c pm rest (i + 1) s sl s' h
                rw [hlen] at this
                exact absurd this (by simp)
              · rename_i ch he
                split at h
                · exact absurd h (by simp)
                · rename_i sl2 s2 hr
                  have ihh := ih (i + 1) (registerChunk s ch) sl2 s2 hr
                  cases h
                  cases m with
                  | zero => simp [List.get]
                  | succ m =>
                      have hlen2 : sl2.length = rest.length := by
                        simpa using hlen
                      have := ihh hlen2 m (by simpa using hm)
                      rw [show i + (m + 1) = (i + 1) + m by omega]
                      exact this

theorem record_slide_number (docIdent : String) (pm : TSP_PackageMetadata) (s : Slide)
    (r : SlideRecord) (h : Slide.record docIdent pm s = .ok r) :
    r.slide_number = s.number := by
  simp only [Slide.record] at h
  split at h
  · exact absurd h (by simp)
  · rename_i tref ht
    split at h
    · exact absurd h (by simp)
    · rename_i item hitem
      split at h
      · exact absurd h (by simp)
      · rename_i a0 ha
        cases h
        rfl

theorem recordsOf_numbers (docIdent : String) (pm : TSP_PackageMetadata) :
    ∀ (sl : List Slide) (recs : List SlideRecord),
    recordsOf docIdent pm sl = .ok recs →
    recs.length = sl.length ∧
    ∀ m (hm : m < recs.length) (hm' : m < sl.length),
      (recs.get ⟨m, hm⟩).slide_number = (sl.get ⟨m, hm'⟩).number := by
  intro sl
  induction sl with
  | nil =>
      intro recs h
      simp only [recordsOf] at h
      cases h
      exact ⟨rfl, fun m hm _ => absurd hm (by simp)⟩
  | cons x rest ih =>
      intro recs h
      simp only [recordsOf] at h
      split at h
      · exact absurd h (by simp)
      · rename_i r hrec
        split at h
        · exact absurd h (by simp)
        · rename_i rs hrs
          cases h
          obtain ⟨hlen, hget⟩ := ih rs hrs
          refine ⟨by simp [hlen], ?_⟩
          intro m hm hm'
          cases m with
          | zero => exact record_slide_number docIdent pm x r hrec
          | succ m => exact hget m (by simpa using hm) (by simpa using hm')

theorem kfSlidesGo_entries_ext (c c₂ : Container) (pm : TSP_PackageMetadata)
    (hent : ∀ q, Container.readEntry c q = Container.readEntry c₂ q) :
    ∀ (refs : List Ref) (i : Nat) (s : Store),
    kfSlidesGo c pm refs i s = kfSlidesGo c₂ pm refs i s := by
  intro refs
  induction refs with
  | nil => intro i s; rfl
  | cons r rest ih =>
      intro i s
      simp only [kfSlidesGo]
      split
      · rfl
      · rename_i arch hl
        split
        · exact ih i s
        · rename_i node hn
          split
          · rfl
          · rename_i slideRef hs
            split
            · rfl
            · rename_i comp hc
              rw [hent (slideEntryPath comp)]
              split
              · exact ih (i + 1) s
              · rename_i ch he
                rw [ih (i + 1) (registerChunk s ch)]

/-- C7: when the slide loop succeeds with one slide per slide-tree node,
the i-th tree node yields the i-th slide, whose ordinal (and the
ordinal of its record) is exactly its tree position; and the loop
depends on the container's entries only through name lookup, so a
container listing the same entries in any order — in particular sorted
opposite to tree order — produces the identical slide list. -/
theorem ordinals_follow_tree_order (c : Container) (pm : TSP_PackageMetadata)
    (refs : List Ref) (i : Nat) (s : Store) (sl : List Slide) (docIdent : String)
    (h : slidesOf (kfSlidesGo c pm refs i s) = some sl)
    (hlen : sl.length = refs.length) :
    (∀ m (hm : m < sl.length), (sl.get ⟨m, hm⟩).number = i + m) ∧
    (∀ recs, recordsOf docIdent pm sl = .ok recs →
      ∀ m (hm : m < recs.length) (hm' : m < sl.length),
        (recs.get ⟨m, hm⟩).slide_number = i + m) ∧
    (∀ c₂ : Container, (∀ q, Container.readEntry c q = Container.readEntry c₂ q) →
      kfSlidesGo c₂ pm refs i s = kfSlidesGo c pm refs i s) := by
  obtain ⟨s', hok⟩ : ∃ s', kfSlidesGo c pm refs i s = .ok (sl, s') := by
    cases hk : kfSlidesGo c pm refs i s with
    | error e =>
        rw [hk] at h
        exact absurd h (by simp [slidesOf])
    | ok p =>
        obtain ⟨sl2, s2⟩ := p
        rw [hk] at h
        have hsl : sl2 = sl := by simpa [slidesOf] using h
        exact ⟨s2, by rw [hsl]⟩
  refine ⟨kfSlidesGo_numbers c pm refs i s sl s' hok hlen, ?_, ?_⟩
  · intro recs hrecs m hm hm'
    obtain ⟨_, hget⟩ := recordsOf_numbers docIdent pm sl recs hrecs
    rw [hget m hm hm']
    exact kfSlidesGo_numbers c pm refs i s sl s' hok hlen m hm'
  · intro c₂ hent
    exact (kfSlidesGo_entries_ext c c₂ pm hent refs i s).symm

/-- Tree node for slide component 10 (entry "Index/B.iwa"). -/
def nodeSlide10 : KN_SlideNodeArchive :=
  { hasBuilds := false, hasNote := false, hasTransition := false,
    isSkipped := false, isSlideNumberVisible := true, thumbnailsAreDirty := false,
    slide := some ⟨10⟩, thumbnails := [⟨7⟩] }

/-- Tree node for slide component 11 (entry "Index/A.iwa"). -/
def nodeSlide11 : KN_SlideNodeArchive :=
  { hasBuilds := false, hasNote := false, hasTransition := false,
    isSkipped := false, isSlideNumberVisible := true, thumbnailsAreDirty := false,
    slide := some ⟨11⟩, thumbnails := [⟨7⟩] }

/-- The tree orders slide 10 (entry "B") before slide 11 (entry "A"):
entry names sort lexicographically opposite to tree order. -/
def pmTwo : TSP_PackageMetadata :=
  { components := [{ identifier := 10, preferredLocator := "B" },
                   { identifier := 11, preferredLocator := "A" }],
    datas := [{ identifier := 7, digest := "dig", preferredFileName := "t.jpg" }],
    fileFormatVersion := ⟨2, 1, 0⟩, revision := ⟨"r"⟩ }

def chunkB : Chunk :=
  { archives :=
      [ { header := ⟨40⟩,
          objects := [.storageArchive { kind := some "TEXTBOX", text := ["first"] }] } ] }

def chunkA : Chunk :=
  { archives :=
      [ { header := ⟨41⟩,
          objects := [.storageArchive { kind := some "TEXTBOX", text := ["second"] }] } ] }

def docChunkTwo : Chunk :=
  { archives :=
      [ { header := ⟨1⟩, objects := [.documentArchive { showRef := ⟨2⟩ }] },
        { header := ⟨2⟩, objects := [.showArchive { slideTree := { slides := [⟨3⟩, ⟨4⟩] } }] },
        { header := ⟨3⟩, objects := [.slideNodeArchive nodeSlide10] },
        { header := ⟨4⟩, objects := [.slideNodeArchive nodeSlide11] } ] }

/-- Container whose entry list is in lexicographic name order ("A"
before "B"), the opposite of tree order (B's slide first). -/
def containerOpp : Container :=
  { path := "/x/opp.key", docIdent := "d",
    documentChunk := .ok docChunkTwo,
    metadataChunk := .ok { archives := [{ header := ⟨5⟩, objects := [.packageMetadata pmTwo] }] },
    entries := [("Index/A.iwa", .ok chunkA), ("Index/B.iwa", .ok chunkB)] }

/-- The same container with its entries listed in the reverse order. -/
def containerOppRev : Container :=
  { path := "/x/opp.key", docIdent := "d",
    documentChunk := .ok docChunkTwo,
    metadataChunk := .ok { archives := [{ header := ⟨5⟩, objects := [.packageMetadata pmTwo] }] },
    entries := [("Index/B.iwa", .ok chunkB), ("Index/A.iwa", .ok chunkA)] }

def storeTwo : Store := registerChunk Store.nil docChunkTwo

def slTwo : List Slide :=
  [ { number := 0, archives := chunkB.archives, node := nodeSlide10 },
    { number := 1, archives := chunkA.archives, node := nodeSlide11 } ]

theorem containerOpp_entries_ext :
    ∀ q, Container.readEntry containerOpp q = Container.readEntry containerOppRev q := by
  intro q
  by_cases hA : q = "Index/A.iwa"
  · subst hA
    decide
  · by_cases hB : q = "Index/B.iwa"
    · subst hB
      decide
    · have h1 : (("Index/A.iwa" : String) == q) = false :=
        beq_eq_false_iff_ne.mpr fun hh => hA hh.symm
      have h2 : (("Index/B.iwa" : String) == q) = false :=
        beq_eq_false_iff_ne.mpr fun hh => hB hh.symm
      simp [Container.readEntry, Container.entryLookup, containerOpp, containerOppRev,
            List.find?, h1, h2]

/-- Witness for `ordinals_follow_tree_order`: the two-slide container
with entry names sorted opposite to tree order. -/
theorem ordinals_follow_tree_order_witness :
    slidesOf (kfSlidesGo containerOpp pmTwo [⟨3⟩, ⟨4⟩] 0 storeTwo) = some slTwo ∧
    (slTwo.get ⟨0, by decide⟩).number = 0 + 0 ∧
    (slTwo.get ⟨1, by decide⟩).number = 0 + 1 ∧
    kfSlidesGo containerOppRev pmTwo [⟨3⟩, ⟨4⟩] 0 storeTwo
      = kfSlidesGo containerOpp pmTwo [⟨3⟩, ⟨4⟩] 0 storeTwo := by
  refine ⟨by decide, ?_, ?_, ?_⟩
  · exact (ordinals_follow_tree_order containerOpp pmTwo [⟨3⟩, ⟨4⟩] 0 storeTwo slTwo "d"
      (by decide) (by decide)).1 0 (by decide)
  · exact (ordinals_follow_tree_order containerOpp pmTwo [⟨3⟩, ⟨4⟩] 0 storeTwo slTwo "d"
      (by decide) (by decide)).1 1 (by decide)
  · exact (ordinals_follow_tree_order containerOpp pmTwo [⟨3⟩, ⟨4⟩] 0 storeTwo slTwo "d"
      (by decide) (by decide)).2.2 containerOppRev containerOpp_entries_ext

/-! ## C5 -/

def chunkIds (ch : Chunk) : List Nat := ch.archives.map fun a => a.header.identifier

def okArchiveIds : Except DecodeErr Chunk → List Nat
  | .ok ch => chunkIds ch
  | .error _ => []

/-- The normal layout: no entry chunk of the container registers an
archive whose identifier is one of the given slide-tree reference
identifiers (slide-node archives live in the document chunk, not in
other slides' chunks). -/
def CleanEntries (c : Container) (refs : List Ref) : Prop :=
  ∀ e ∈ c.entries, ∀ k ∈ okArchiveIds e.2, ∀ r ∈ refs, ¬ k = r.identifier

instance (c : Container) (refs : List Ref) : Decidable (CleanEntries c refs) := by
  unfold CleanEntries
  infer_instance

/-- The container entry path a slide-tree reference leads to, resolved
against a given store: reference → slide-node archive → slide
component → locator path. -/
def nodeEntryPath (pm : TSP_PackageMetadata) (s : Store) (r : Ref) : Option String :=
  match Ref.archive s r with
  | none => none
  | some arch =>
    match (arch.objects.filterMap isSlideNodeArchive?).head? with
    | none => none
    | some node =>
      match node.slide with
      | none => none
      | some slideRef =>
        match pm.get_component slideRef.identifier with
        | none => none
        | some comp => some (slideEntryPath comp)

theorem readEntry_ok_mem (c : Container) (q : String) (ch : Chunk)
    (h : Container.readEntry c q = .ok ch) : (q, Except.ok ch) ∈ c.entries := by
  unfold Container.readEntry at h
  split at h
  · exact absurd h (by simp)
  · exact absurd h (by simp)
  · rename_i ch2 hl
    cases h
    unfold Container.entryLookup at hl
    cases hf : c.entries.find? (fun e => e.1 == q) with
    | none => rw [hf] at hl; exact absurd hl (by simp)
    | some e =>
        rw [hf] at hl
        obtain ⟨e1, e2⟩ := e
        have hmem := List.mem_of_find?_eq_some hf
        have hpred := List.find?_some hf
        have he1 : e1 = q := by simpa using hpred
        have he2 : e2 = Except.ok ch := by simpa using hl
        rw [he1, he2] at hmem
        exact hmem

theorem mem_registerChunk (t : Store) (ch : Chunk) (kv : Nat × Archive)
    (h : kv ∈ registerChunk t ch) :
    kv ∈ t ∨ ∃ a ∈ ch.archives, kv = (a.header.identifier, a) := by
  unfold registerChunk at h
  generalize hl : ch.archives = l at h ⊢
  clear hl
  induction l generalizing t with
  | nil => exact Or.inl h
  | cons a rest ih =>
      simp only [List.foldl_cons] at h
      rcases ih ((a.header.identifier, a) :: t) h with hin | ⟨b, hb, hkv⟩
      · rcases List.mem_cons.mp hin with heq | hin2
        · exact Or.inr ⟨a, by simp, heq⟩
        · exact Or.inl hin2
      · exact Or.inr ⟨b, by simp [hb], hkv⟩

theorem store_lookup_clean (t s : Store) (k : Nat)
    (hc : ∀ kv ∈ t, ¬ kv.1 = k) :
    Store.lookup (t ++ s) k = Store.lookup s k := by
  induction t with
  | nil => rw [List.nil_append]
  | cons kv rest ih =>
      rw [List.cons_append]
      show (if (kv.1 == k) = true then some kv.2 else Store.lookup (rest ++ s) k)
        = Store.lookup s k
      have hk : (kv.1 == k) = false := beq_eq_false_iff_ne.mpr (hc kv (by simp))
      rw [hk]
      simp only [Bool.false_eq_true, if_false]
      exact ih fun b hb => hc b (List.mem_cons_of_mem kv hb)

theorem clean_register (t : Store) (ch : Chunk) (refs : List Ref)
    (ht : ∀ kv ∈ t, ∀ r ∈ refs, ¬ kv.1 = r.identifier)
    (hch : ∀ k ∈ chunkIds ch, ∀ r ∈ refs, ¬ k = r.identifier) :
    ∀ kv ∈ registerChunk t ch, ∀ r ∈ refs, ¬ kv.1 = r.identifier := by
  intro kv hkv r hr
  rcases mem_registerChunk t ch kv hkv with hin | ⟨a, ha, hkv2⟩
  · exact ht kv hin r hr
  · subst hkv2
    refine hch a.header.identifier ?_ r hr
    simp only [chunkIds, List.mem_map]
    exact ⟨a, ha, rfl⟩

theorem cleanEntries_chunk (c : Container) (refs : List Ref) (q : String) (ch : Chunk)
    (hc : CleanEntries c refs) (h : Container.readEntry c q = .ok ch) :
    ∀ k ∈ chunkIds ch, ∀ r ∈ refs, ¬ k = r.identifier := by
  intro k hk r hr
  exact hc (q, .ok ch) (readEntry_ok_mem c q ch h) k (by simpa [okArchiveIds] using hk) r hr

theorem cleanEntries_sub (c : Container) (refs refs' : List Ref)
    (hsub : ∀ r ∈ refs', r ∈ refs) (hc : CleanEntries c refs) : CleanEntries c refs' :=
  fun e he k hk r hr => hc e he k hk r (hsub r hr)

/-- Parallel-run lemma: once past the failed slide, the degraded run
(stores missing the failed slide's registrations) produces exactly the
same slides as the intact run, provided tree references resolve in the
common base store (clean accumulations, clean entry chunks) and no
remaining node's backing entry is the failed path. -/
theorem kfSlidesGo_sync (cA cB : Container) (pm : TSP_PackageMetadata) (p : String)
    (hent : ∀ q, ¬ q = p → Container.readEntry cA q = Container.readEntry cB q) :
    ∀ (refs : List Ref) (i : Nat) (s tA tB : Store) (sl : List Slide) (sB : Store),
    (∀ kv ∈ tA, ∀ r ∈ refs, ¬ kv.1 = r.identifier) →
    (∀ kv ∈ tB, ∀ r ∈ refs, ¬ kv.1 = r.identifier) →
    CleanEntries cA refs → CleanEntries cB refs →
    (∀ r ∈ refs, ¬ nodeEntryPath pm s r = some p) →
    kfSlidesGo cB pm refs i (tB ++ s) = .ok (sl, sB) →
    sl.length = refs.length →
    ∃ sA, kfSlidesGo cA pm refs i (tA ++ s) = .ok (sl, sA) := by
  intro refs
  induction refs with
  | nil =>
      intro i s tA tB sl sB htA htB hcA hcB hpaths h hlen
      simp only [kfSlidesGo] at h ⊢
      cases h
      exact ⟨tA ++ s, rfl⟩
  | cons r rest ih =>
      intro i s tA tB sl sB htA htB hcA hcB hpaths h hlen
      simp only [kfSlidesGo] at h ⊢
      have hlookB : Ref.archive (tB ++ s) r = Ref.archive s r :=
        store_lookup_clean tB s r.identifier fun kv hkv => htB kv hkv r (by simp)
      have hlookA : Ref.archive (tA ++ s) r = Ref.archive s r :=
        store_lookup_clean tA s r.identifier fun kv hkv => htA kv hkv r (by simp)
      rw [hlookB] at h
      rw [hlookA]
      have hsubr : ∀ x ∈ rest, x ∈ r :: rest := fun x hx => List.mem_cons_of_mem r hx
      split at h
      · exact absurd h (by simp)
      · rename_i arch harch
        try simp only [harch]
        split at h
        · have hle := kfSlidesGo_length_le cB pm rest i (tB ++ s) sl sB h
          rw [hlen] at hle
          exact absurd hle (by simp)
        · rename_i node hn
          try simp only [hn]
          split at h
          · exact absurd h (by simp)
          · rename_i sref hs
            try simp only [hs]
            split at h
            · exact absurd h (by simp)
            · rename_i comp hc
              try simp only [hc]
              have hne : ¬ slideEntryPath comp = p := by
                intro hpp
                exact hpaths r (by simp)
                  (by simp only [nodeEntryPath, harch, hn, hs, hc, hpp])
              have hentEq : Container.readEntry cA (slideEntryPath comp)
                  = Container.readEntry cB (slideEntryPath comp) := hent _ hne
              rw [hentEq]
              split at h
              · have hle := kfSlidesGo_length_le cB pm rest (i + 1) (tB ++ s) sl sB h
                rw [hlen] at hle
                exact absurd hle (by simp)
              · rename_i ch he
                try simp only [he]
                rw [registerChunk_append] at h
                split at h
                · exact absurd h (by simp)
                · rename_i sl2 sB2 hr
                  have hchClean : ∀ k ∈ chunkIds ch, ∀ x ∈ rest, ¬ k = x.identifier :=
                    fun k hk x hx =>
                      cleanEntries_chunk cB (r :: rest) (slideEntryPath comp) ch hcB he
                        k hk x (hsubr x hx)
                  have htA2 : ∀ kv ∈ registerChunk tA ch, ∀ x ∈ rest, ¬ kv.1 = x.identifier :=
                    clean_register tA ch rest
                      (fun kv hkv x hx => htA kv hkv x (hsubr x hx)) hchClean
                  have htB2 : ∀ kv ∈ registerChunk tB ch, ∀ x ∈ rest, ¬ kv.1 = x.identifier :=
                    clean_register tB ch rest
                      (fun kv hkv x hx => htB kv hkv x (hsubr x hx)) hchClean
                  have ihh := ih (i + 1) s (registerChunk tA ch) (registerChunk tB ch)
                    sl2 sB2 htA2 htB2
                    (cleanEntries_sub cA _ rest hsubr hcA)
                    (cleanEntries_sub cB _ rest hsubr hcB)
                    (fun x hx => hpaths x (hsubr x hx)) hr
                  cases h
                  obtain ⟨sA2, hA2⟩ := ihh (by simpa using hlen)
                  rw [registerChunk_append]
                  refine ⟨sA2, ?_⟩
                  simp only [hA2]

/-- One missing backing entry, normal layout: the degraded run produces
the intact run's slide list minus the failed node's slide. -/
theorem kfSlidesGo_one_missing (cBad cOk : Container) (pm : TSP_PackageMetadata) (p : String)
    (hent : ∀ q, ¬ q = p → Container.readEntry cBad q = Container.readEntry cOk q)
    (hbad : ∀ ch, ¬ Container.readEntry cBad p = .ok ch) :
    ∀ (pre : List Ref) (r0 : Ref) (post : List Ref) (i : Nat) (s tBad tOk : Store)
      (sl : List Slide) (sOk : Store),
    (∀ kv ∈ tBad, ∀ r ∈ pre ++ r0 :: post, ¬ kv.1 = r.identifier) →
    (∀ kv ∈ tOk, ∀ r ∈ pre ++ r0 :: post, ¬ kv.1 = r.identifier) →
    CleanEntries cBad (pre ++ r0 :: post) →
    CleanEntries cOk (pre ++ r0 :: post) →
    nodeEntryPath pm s r0 = some p →
    (∀ r ∈ pre ++ post, ¬ nodeEntryPath pm s r = some p) →
    kfSlidesGo cOk pm (pre ++ r0 :: post) i (tOk ++ s) = .ok (sl, sOk) →
    sl.length = (pre ++ r0 :: post).length →
    ∃ sBad, kfSlidesGo cBad pm (pre ++ r0 :: post) i (tBad ++ s)
      = .ok (sl.eraseIdx pre.length, sBad) := by
  intro pre
  induction pre with
  | nil =>
      intro r0 post i s tBad tOk sl sOk htBad htOk hcBad hcOk hpath hothers h hlen
      simp only [List.nil_append] at htBad htOk hcBad hcOk hothers h hlen ⊢
      simp only [nodeEntryPath] at hpath
      split at hpath
      · exact absurd hpath (by simp)
      · rename_i arch harch
        split at hpath
        · exact absurd hpath (by simp)
        · rename_i node hn
          split at hpath
          · exact absurd hpath (by simp)
          · rename_i sref hs
            split at hpath
            · exact absurd hpath (by simp)
            · rename_i comp hc
              have hpp : slideEntryPath comp = p := by simpa using hpath
              have hlookO : Ref.archive (tOk ++ s) r0 = Ref.archive s r0 :=
                store_lookup_clean tOk s r0.identifier fun kv hkv => htOk kv hkv r0 (by simp)
              have hlookB : Ref.archive (tBad ++ s) r0 = Ref.archive s r0 :=
                store_lookup_clean tBad s r0.identifier fun kv hkv => htBad kv hkv r0 (by simp)
              simp only [kfSlidesGo] at h ⊢
              simp only [hlookO, harch, hn, hs, hc, hpp] at h
              simp only [hlookB, harch, hn, hs, hc, hpp]
              cases hbe : Container.readEntry cBad p with
              | ok ch => exact absurd hbe (hbad ch)
              | error e =>
                  simp only [hbe]
                  have hsubp : ∀ x ∈ post, x ∈ r0 :: post :=
                    fun x hx => List.mem_cons_of_mem r0 hx
                  split at h
                  · have hle := kfSlidesGo_length_le cOk pm post (i + 1) (tOk ++ s) sl sOk h
                    rw [hlen] at hle
                    exact absurd hle (by simp)
                  · rename_i ch he
                    rw [registerChunk_append] at h
                    split at h
                    · exact absurd h (by simp)
                    · rename_i sl2 sOk2 hr
                      have hchClean : ∀ k ∈ chunkIds ch, ∀ x ∈ post, ¬ k = x.identifier :=
                        fun k hk x hx =>
                          cleanEntries_chunk cOk (r0 :: post) p ch hcOk he k hk x (hsubp x hx)
                      have htBad2 : ∀ kv ∈ tBad, ∀ x ∈ post, ¬ kv.1 = x.identifier :=
                        fun kv hkv x hx => htBad kv hkv x (hsubp x hx)
                      have htOk2 : ∀ kv ∈ registerChunk tOk ch, ∀ x ∈ post, ¬ kv.1 = x.identifier :=
                        clean_register tOk ch post
                          (fun kv hkv x hx => htOk kv hkv x (hsubp x hx)) hchClean
                      have ihh := kfSlidesGo_sync cBad cOk pm p hent post (i + 1) s tBad
                        (registerChunk tOk ch) sl2 sOk2 htBad2 htOk2
                        (cleanEntries_sub cBad _ post hsubp hcBad)
                        (cleanEntries_sub cOk _ post hsubp hcOk)
                        hothers hr
                      cases h
                      obtain ⟨sA, hA⟩ := ihh (by simpa using hlen)
                      exact ⟨sA, hA⟩
  | cons r1 pre' ih =>
      intro r0 post i s tBad tOk sl sOk htBad htOk hcBad hcOk hpath hothers h hlen
      simp only [List.cons_append] at htBad htOk hcBad hcOk h hlen ⊢
      simp only [List.cons_append, List.mem_cons] at hothers
      have hothers1 : ¬ nodeEntryPath pm s r1 = some p := hothers r1 (Or.inl rfl)
      have hothersRest : ∀ r ∈ pre' ++ post, ¬ nodeEntryPath pm s r = some p := by
        intro r hr
        refine hothers r (Or.inr ?_)
        rcases List.mem_append.mp hr with h1 | h2
        · exact List.mem_append.mpr (Or.inl h1)
        · exact List.mem_append.mpr (Or.inr h2)
      have hsubr : ∀ x ∈ pre' ++ r0 :: post, x ∈ r1 :: (pre' ++ r0 :: post) :=
        fun x hx => List.mem_cons_of_mem r1 hx
      simp only [kfSlidesGo] at h ⊢
      have hlookO : Ref.archive (tOk ++ s) r1 = Ref.archive s r1 :=
        store_lookup_clean tOk s r1.identifier fun kv hkv => htOk kv hkv r1 (by simp)
      have hlookB : Ref.archive (tBad ++ s) r1 = Ref.archive s r1 :=
        store_lookup_clean tBad s r1.identifier fun kv hkv => htBad kv hkv r1 (by simp)
      rw [hlookO] at h
      rw [hlookB]
      split at h
      · exact absurd h (by simp)
      · rename_i arch harch
        try simp only [harch]
        split at h
        · have hle := kfSlidesGo_length_le cOk pm (pre' ++ r0 :: post) i (tOk ++ s) sl sOk h
          rw [hlen] at hle
          exact absurd hle (by simp)
        · rename_i node hn
          try simp only [hn]
          split at h
          · exact absurd h (by simp)
          · rename_i sref hs
            try simp only [hs]
            split at h
            · exact absurd h (by simp)
            · rename_i comp hc
              try simp only [hc]
              have hne : ¬ slideEntryPath comp = p := by
                intro hpp
                exact hothers1 (by simp only [nodeEntryPath, harch, hn, hs, hc, hpp])
              have hentEq : Container.readEntry cBad (slideEntryPath comp)
                  = Container.readEntry cOk (slideEntryPath comp) := hent _ hne
              rw [hentEq]
              split at h
              · have hle := kfSlidesGo_length_le cOk pm (pre' ++ r0 :: post) (i + 1)
                  (tOk ++ s) sl sOk h
                rw [hlen] at hle
                exact absurd hle (by simp)
              · rename_i ch he
                try simp only [he]
                rw [registerChunk_append] at h
                split at h
                · exact absurd h (by simp)
                · rename_i sl2 sOk2 hr
                  have heB : Container.readEntry cBad (slideEntryPath comp) = .ok ch := by
                    rw [hentEq]
                    exact he
                  have hchClean : ∀ k ∈ chunkIds ch, ∀ x ∈ pre' ++ r0 :: post,
                      ¬ k = x.identifier :=
                    fun k hk x hx =>
                      cleanEntries_chunk cOk (r1 :: (pre' ++ r0 :: post))
                        (slideEntryPath comp) ch hcOk he k hk x (hsubr x hx)
                  have htBad2 : ∀ kv ∈ registerChunk tBad ch, ∀ x ∈ pre' ++ r0 :: post,
                      ¬ kv.1 = x.identifier :=
                    clean_register tBad ch _
                      (fun kv hkv x hx => htBad kv hkv x (hsubr x hx)) hchClean
                  have htOk2 : ∀ kv ∈ registerChunk tOk ch, ∀ x ∈ pre' ++ r0 :: post,
                      ¬ kv.1 = x.identifier :=
                    clean_register tOk ch _
                      (fun kv hkv x hx => htOk kv hkv x (hsubr x hx)) hchClean
                  have ihh := ih r0 post (i + 1) s (registerChunk tBad ch)
                    (registerChunk tOk ch) sl2 sOk2 htBad2 htOk2
                    (cleanEntries_sub cBad _ _ hsubr hcBad)
                    (cleanEntries_sub cOk _ _ hsubr hcOk)
                    hpath hothersRest hr
                  cases h
                  obtain ⟨sB2, hB2⟩ := ihh (by simpa using hlen)
                  rw [registerChunk_append]
                  refine ⟨sB2, ?_⟩
                  simp only [hB2]
                  rfl

theorem eraseIdx_length_succ : ∀ (l : List Slide) (j : Nat), j < l.length →
    (l.eraseIdx j).length + 1 = l.length := by
  intro l
  induction l with
  | nil => intro j hj; exact absurd hj (by simp)
  | cons x rest ih =>
      intro j hj
      cases j with
      | zero => simp [List.eraseIdx]
      | succ j =>
          simp only [List.eraseIdx, List.length_cons]
          rw [ih j (by simpa using hj)]

theorem recordsOf_eraseIdx (docIdent : String) (pm : TSP_PackageMetadata) :
    ∀ (sl : List Slide) (recs : List SlideRecord) (j : Nat),
    recordsOf docIdent pm sl = .ok recs →
    recordsOf docIdent pm (sl.eraseIdx j) = .ok (recs.eraseIdx j) := by
  intro sl
  induction sl with
  | nil =>
      intro recs j h
      simp only [recordsOf] at h
      cases h
      rfl
  | cons x rest ih =>
      intro recs j h
      simp only [recordsOf] at h
      split at h
      · exact absurd h (by simp)
      · rename_i r hrec
        split at h
        · exact absurd h (by simp)
        · rename_i rs hrs
          cases h
          cases j with
          | zero => exact hrs
          | succ j =>
              have hih := ih rs j hrs
              simp only [List.eraseIdx, recordsOf, hrec, hih]

/-- C5 amended: with the normal layout — every slide-tree reference
resolves against archives registered before the slide loop, and no
entry chunk carries an archive with a tree-reference identifier — a
document whose slide tree has N nodes and exactly one node with a
missing or undecodable backing entry still builds: the failure is
logged and skipped, the slide list is the intact run's list minus that
node's slide (length N−1), and the surviving slides' records are
exactly the intact run's records minus that slide's record.  Without
that layout assumption one missing entry can abort construction (see
the counterexample). -/
theorem one_missing_entry_omits_slide (cBad cOk : Container) (pm : TSP_PackageMetadata)
    (p : String) (pre post : List Ref) (r0 : Ref) (s : Store) (sl : List Slide)
    (hent : ∀ q, ¬ q = p → Container.readEntry cBad q = Container.readEntry cOk q)
    (hbad : ∀ ch, ¬ Container.readEntry cBad p = .ok ch)
    (hcBad : CleanEntries cBad (pre ++ r0 :: post))
    (hcOk : CleanEntries cOk (pre ++ r0 :: post))
    (hpath : nodeEntryPath pm s r0 = some p)
    (hothers : ∀ r ∈ pre ++ post, ¬ nodeEntryPath pm s r = some p)
    (hok : slidesOf (kfSlidesGo cOk pm (pre ++ r0 :: post) 0 s) = some sl)
    (hlen : sl.length = (pre ++ r0 :: post).length) :
    slidesOf (kfSlidesGo cBad pm (pre ++ r0 :: post) 0 s) = some (sl.eraseIdx pre.length) ∧
    (sl.eraseIdx pre.length).length + 1 = sl.length ∧
    ∀ docIdent recs, recordsOf docIdent pm sl = .ok recs →
      recordsOf docIdent pm (sl.eraseIdx pre.length) = .ok (recs.eraseIdx pre.length) := by
  obtain ⟨sOk, hOk⟩ : ∃ x, kfSlidesGo cOk pm (pre ++ r0 :: post) 0 s = .ok (sl, x) := by
    cases hk : kfSlidesGo cOk pm (pre ++ r0 :: post) 0 s with
    | error e =>
        rw [hk] at hok
        exact absurd hok (by simp [slidesOf])
    | ok q =>
        obtain ⟨sl2, s2⟩ := q
        rw [hk] at hok
        have hsl : sl2 = sl := by simpa [slidesOf] using hok
        exact ⟨s2, by rw [hsl]⟩
  have h0 : kfSlidesGo cOk pm (pre ++ r0 :: post) 0 ((Store.nil : Store) ++ s)
      = .ok (sl, sOk) := by
    rw [show ((Store.nil : Store) ++ s) = s from List.nil_append s]
    exact hOk
  obtain ⟨sBad, hBad⟩ := kfSlidesGo_one_missing cBad cOk pm p hent hbad pre r0 post 0 s
    Store.nil Store.nil sl sOk
    (by intro kv hkv; exact absurd hkv (by simp [Store.nil]))
    (by intro kv hkv; exact absurd hkv (by simp [Store.nil]))
    hcBad hcOk hpath hothers h0 hlen
  rw [show ((Store.nil : Store) ++ s) = s from List.nil_append s] at hBad
  refine ⟨by rw [hBad]; rfl, ?_, ?_⟩
  · refine eraseIdx_length_succ sl pre.length ?_
    rw [hlen]
    simp only [List.length_append, List.length_cons]
    omega
  · intro docIdent recs hrecs
    exact recordsOf_eraseIdx docIdent pm sl recs pre.length hrecs

/-- A slide chunk that also carries the slide-node archive (id 99) of
the next tree entry — the pathological layout. -/
def chunkCarrier : Chunk :=
  { archives :=
      [ { header := ⟨99⟩, objects := [.slideNodeArchive nodeSlide11] },
        { header := ⟨42⟩,
          objects := [.storageArchive { kind := some "TEXTBOX", text := ["carrier"] }] } ] }

def docChunkInter : Chunk :=
  { archives :=
      [ { header := ⟨1⟩, objects := [.documentArchive { showRef := ⟨2⟩ }] },
        { header := ⟨2⟩, objects := [.showArchive { slideTree := { slides := [⟨3⟩, ⟨99⟩] } }] },
        { header := ⟨3⟩, objects := [.slideNodeArchive nodeSlide10] } ] }

/-- Intact container: node 99's archive is only registered by slide
10's chunk ("Index/B.iwa"). -/
def containerInterOk : Container :=
  { path := "/x/inter.key", docIdent := "d",
    documentChunk := .ok docChunkInter,
    metadataChunk := .ok { archives := [{ header := ⟨5⟩, objects := [.packageMetadata pmTwo] }] },
    entries := [("Index/B.iwa", .ok chunkCarrier), ("Index/A.iwa", .ok chunkA)] }

/-- The same container with slide 10's backing entry missing. -/
def containerInterBad : Container :=
  { path := "/x/inter.key", docIdent := "d",
    documentChunk := .ok docChunkInter,
    metadataChunk := .ok { archives := [{ header := ⟨5⟩, objects := [.packageMetadata pmTwo] }] },
    entries := [("Index/A.iwa", .ok chunkA)] }

def storeInter : Store := registerChunk Store.nil docChunkInter

/-- C5 counterexample: a slide tree with N = 2 nodes and exactly one
missing backing entry, where the second node's archive is supplied by
the first slide's chunk.  The intact run yields 2 slides; the degraded
run does not yield N−1 = 1 slides — it aborts with an uncaught
`KeyError` when resolving tree reference 99, so document construction
fails entirely, refuting the claim as stated. -/
theorem single_missing_entry_aborts :
    (slidesOf (kfSlidesGo containerInterOk pmTwo [⟨3⟩, ⟨99⟩] 0 storeInter)).map List.length
      = some 2 ∧
    Container.readEntry containerInterBad "Index/B.iwa" = .error .keyError ∧
    (Container.readEntry containerInterBad "Index/A.iwa").isOk = true ∧
    kfSlidesGo containerInterBad pmTwo [⟨3⟩, ⟨99⟩] 0 storeInter = .error .keyError := by
  decide

/-- `containerOpp` with slide 10's backing entry "Index/B.iwa" missing. -/
def containerMissB : Container :=
  { path := "/x/opp.key", docIdent := "d",
    documentChunk := .ok docChunkTwo,
    metadataChunk := .ok { archives := [{ header := ⟨5⟩, objects := [.packageMetadata pmTwo] }] },
    entries := [("Index/A.iwa", .ok chunkA)] }

theorem containerMissB_entries_ext :
    ∀ q, ¬ q = "Index/B.iwa" →
      Container.readEntry containerMissB q = Container.readEntry containerOpp q := by
  intro q hq
  by_cases hA : q = "Index/A.iwa"
  · subst hA
    decide
  · have h1 : (("Index/A.iwa" : String) == q) = false :=
      beq_eq_false_iff_ne.mpr fun hh => hA hh.symm
    have h2 : (("Index/B.iwa" : String) == q) = false :=
      beq_eq_false_iff_ne.mpr fun hh => hq hh.symm
    simp [Container.readEntry, Container.entryLookup, containerMissB, containerOpp,
          List.find?, h1, h2]

/-- Witness for `one_missing_entry_omits_slide`: the clean two-slide
container with its first slide's entry missing yields exactly the
second slide. -/
theorem one_missing_entry_omits_slide_witness :
    slidesOf (kfSlidesGo containerMissB pmTwo [⟨3⟩, ⟨4⟩] 0 storeTwo)
      = some (slTwo.eraseIdx 0) ∧
    (slTwo.eraseIdx 0).length + 1 = slTwo.length := by
  have hbad : ∀ ch, ¬ Container.readEntry containerMissB "Index/B.iwa" = .ok ch := by
    intro ch hch
    rw [(by decide : Container.readEntry containerMissB "Index/B.iwa"
        = Except.error PyErr.keyError)] at hch
    exact absurd hch (by simp)
  have h := one_missing_entry_omits_slide containerMissB containerOpp pmTwo "Index/B.iwa"
    [] [⟨4⟩] ⟨3⟩ storeTwo slTwo containerMissB_entries_ext hbad
    (by decide) (by decide) (by decide) (by decide) (by decide) (by decide)
  exact ⟨h.1, h.2.1⟩
